import Mathlib

/-!
# The init daemon of galaxy (`src/gce/initd_main.cc`)

A shallow embedding of `initd_main.cc`: the checkpoint load and dump, the
namespace bootstrap `MountProc`, and `main` with its bounded RPC start retry,
its signal-driven polling loop and the restart by `execvp`.

What the program does to the outside is recorded as a list of events (the
external calls, in program order) and as a `World` (files, directories,
mounts).  What the outside answers is read from an `Env`.  The supervisor
`InitdImpl` and the protobuf message `ProcessInfoCheckpoint` are declared in
headers that are not part of the sources at hand; they are parameters
(`InitdApi`).  Logging is not part of the model, nor are signals that arrive
before the handlers are installed.
-/

namespace Initd

/-! ## Constants -/

/-- The `RPC_START_FAIL` of line 26. -/
def RPC_START_FAIL : Int := -3

/-- The `MAX_START_TIMES` of line 27. -/
def MAX_START_TIMES : Nat := 15

/-- The `EXIT_SUCCESS` of `stdlib.h` (glibc). -/
def EXIT_SUCCESS : Int := 0

/-- The `EXIT_FAILURE` of `stdlib.h` (glibc). -/
def EXIT_FAILURE : Int := 1

/-- The `EBUSY` of `errno.h` (Linux). -/
def EBUSY : Nat := 16

/-- The low eight bits of a status, which is what a parent sees of the value
returned from `main`. -/
def exitStatus8 (code : Int) : Int := code % 256

/-- Conversion of a stream position to `int` (line 56): wrap to 32 bits, two's
complement. -/
def toInt32 (n : Int) : Int :=
  let m : Int := n % 2 ^ 32
  if m < 2 ^ 31 then m else m - 2 ^ 32

/-! ## Data -/

/-- A `std::string` or a `char` buffer, one number per byte. -/
abbrev Bytes := List Nat

/-- The three signals `main` installs a handler for. -/
inductive Signal where
  | SIGTERM
  | SIGINT
  | SIGUSR1
deriving DecidableEq, Repr

/-- The two handlers of lines 35-41, by name. -/
inductive Handler where
  | StopSigHandler
  | RestartSigHandler
deriving DecidableEq, Repr

/-- The two `volatile static bool` of lines 32-33. -/
structure SigFlags where
  s_is_stop : Bool
  s_is_restart : Bool
deriving DecidableEq, Repr

/-- A `char*` of the `restart_argv` array: `NULL`, a slot never assigned, or
a pointer to a buffer. -/
inductive CharPtr where
  | null
  | uninit
  | buf (b : Bytes)
deriving DecidableEq, Repr

/-- The external calls of the program; `κ` is `ProcessInfoCheckpoint`. -/
inductive Event (κ : Type) where
  | parseCommandLineFlags
  | getpid
  | getCwd
  | mkdir (path : String)
  | mount (source target fstype : String)
  | initdInit
  | isExists (path : String)
  | openRead (path : String)
  | loadProcessInfoCheckPoint (checkpoint : κ)
  | remove (path : String)
  | registerService
  | rpcStart (host : String)
  | sleep (seconds : Nat)
  | signal (sig : Signal) (handler : Handler)
  | rpcStop
  | dumpProcessInfoCheckPoint
  | openWrite (path : String)
  | writeFile (path : String) (data : Bytes)
  | execvp (file : CharPtr) (argv : List CharPtr)
deriving DecidableEq, Repr

/-- The part of the machine the program changes: regular files by path,
directories, and mounts as (target, fstype). -/
structure World where
  files : List (String × Bytes)
  dirs : List String
  mounts : List (String × String)
deriving DecidableEq, Repr

/-- What the outside answers during one run of the program. -/
structure Env where
  /-- value of `FLAGS_gce_initd_dump_file` -/
  gce_initd_dump_file : String
  /-- value of `FLAGS_gce_initd_port` -/
  gce_initd_port : String
  /-- result of `getpid()` -/
  pid : Nat
  /-- result of `GetCwd`: the directory, or `none` when it returns false -/
  cwd : Option String
  /-- result of `Mkdir` -/
  mkdirOk : Bool
  /-- return value of `mount()` -/
  mountRet : Int
  /-- value of `errno` after `mount()` -/
  mountErrno : Nat
  /-- whether an `ifstream` on an existing dump file opens -/
  openReadOk : Bool
  /-- whether the `ofstream` on the dump file opens -/
  openWriteOk : Bool
  /-- what becomes of the write of line 101: `none` when the stream stores
  every byte, `some n` when it fails after `n` bytes (a full disk) -/
  writeFails : Option Nat
  /-- the bytes of stack left for the array `temp_read_buffer` of line 58 -/
  stackLimit : Nat
  /-- result of `RegisterService` -/
  registerOk : Bool
  /-- result of the i-th call of `rpc_server.Start`, counted from 0 -/
  startOk : Nat → Bool
  /-- the signals delivered during the k-th `sleep(5)` of the polling loop -/
  sleepSignals : List (List Signal)
  /-- the signals delivered between the last test of the loop condition and
  the test of `s_is_restart` on line 199 -/
  lateSignals : List Signal
  /-- whether `execvp` replaces the process image (it returns only on failure) -/
  execvpOk : Bool
  /-- content of freshly allocated `char` arrays -/
  junk : Nat
  /-- the rewriting of `argv` by `ParseCommandLineFlags` -/
  parseFlags : List Bytes → List Bytes

/-- The interface of `InitdImpl` (`gce/initd_impl.h`) and of the message
`ProcessInfoCheckpoint`, neither of which is in the sources at hand: `σ` is
the state of the supervisor, `κ` the message. -/
structure InitdApi (σ κ : Type) where
  /-- the state after `new InitdImpl()` -/
  create : σ
  /-- the method `InitdImpl::Init` -/
  Init : σ → Bool × σ
  /-- the method `InitdImpl::LoadProcessInfoCheckPoint` -/
  LoadProcessInfoCheckPoint : σ → κ → Bool × σ
  /-- the method `InitdImpl::DumpProcessInfoCheckPoint`: the message filled in, or `none`
  when it returns false -/
  DumpProcessInfoCheckPoint : σ → Option κ
  /-- the method `ProcessInfoCheckpoint::ParseFromString`: `none` when it returns false -/
  ParseFromString : Bytes → Option κ
  /-- the method `ProcessInfoCheckpoint::SerializeToString`: `none` when it returns false -/
  SerializeToString : κ → Option Bytes

/-- How a run of `main` ends. -/
inductive Outcome where
  /-- the value `main` returned -/
  | exit (code : Int)
  /-- the process image was replaced by `execvp` -/
  | execed
  /-- no signal sets a flag: the polling loop goes on for ever -/
  | polling
  /-- the array of line 58 has a negative length or does not fit the stack -/
  | undefined
deriving DecidableEq, Repr

/-- A run of `main`: the events in order, the world at the end, and how it
ended. -/
structure Run (κ : Type) where
  trace : List (Event κ)
  world : World
  outcome : Outcome

/-- The run `r` preceded by the events `t`. -/
def Run.after {κ : Type} (t : List (Event κ)) (r : Run κ) : Run κ :=
  { r with trace := t ++ r.trace }

/-! ## File helpers -/

/-- Modelled from the spec: `file::IsExists` of `agent/utils.h` (the
"exists" filesystem helper), true when a file is at the path. -/
def World.IsExists (w : World) (path : String) : Bool :=
  (List.lookup path w.files).isSome

/-- Content of the file at a path. -/
def World.readFile (w : World) (path : String) : Option Bytes :=
  List.lookup path w.files

/-- What an `ifstream` on the path has to open: the position `tellg()` reports
at the end, and the bytes.  A directory can be opened too, and `tellg()` fails
on it with -1.  `none` when nothing is at the path. -/
def World.ifstream (w : World) (path : String) : Option (Int × Bytes) :=
  match w.readFile path with
  | some content => some ((content.length : Int), content)
  | none => if path ∈ w.dirs then some (-1, []) else none

/-- The bytes of a buffer that the stream of line 101 stores. -/
def Env.stored (env : Env) (buffer : Bytes) : Bytes :=
  match env.writeFails with
  | none => buffer
  | some n => buffer.take n

/-- Modelled from the spec: `file::Remove` of `agent/utils.h` (the "remove"
filesystem helper), after which no file is at the path. -/
def World.Remove (w : World) (path : String) : World :=
  { w with files := w.files.filter (fun e => e.1 != path) }

/-- An `ofstream` opened on the path (truncating), written and closed. -/
def World.writeFile (w : World) (path : String) (data : Bytes) : World :=
  { w with files := (path, data) :: w.files.filter (fun e => e.1 != path) }

/-- Modelled from the spec: `file::Mkdir` of `agent/utils.h` (the "mkdir"
filesystem helper) when it succeeds: the directory exists afterwards. -/
def World.Mkdir (w : World) (path : String) : World :=
  if path ∈ w.dirs then w else { w with dirs := path :: w.dirs }

/-- A successful `mount()` of a filesystem type at a target. -/
def World.mount (w : World) (target fstype : String) : World :=
  { w with mounts := (target, fstype) :: w.mounts }

/-! ## Signal handlers (lines 35-41) -/

/-- Source: `StopSigHandler`. -/
def StopSigHandler (f : SigFlags) : SigFlags :=
  { f with s_is_stop := true }

/-- Source: `RestartSigHandler`. -/
def RestartSigHandler (f : SigFlags) : SigFlags :=
  { f with s_is_restart := true }

/-- The code of a handler. -/
def Handler.run : Handler → SigFlags → SigFlags
  | .StopSigHandler => Initd.StopSigHandler
  | .RestartSigHandler => Initd.RestartSigHandler

/-- The handlers installed by lines 191-193, in that order. -/
def installedHandlers : List (Signal × Handler) :=
  [(.SIGTERM, .StopSigHandler), (.SIGINT, .StopSigHandler),
   (.SIGUSR1, .RestartSigHandler)]

/-- Delivery of one signal once the handlers are installed. -/
def deliver (f : SigFlags) (sig : Signal) : SigFlags :=
  match List.lookup sig installedHandlers with
  | some h => h.run f
  | none => f

/-- Delivery of several signals in order. -/
def deliverAll (f : SigFlags) (sigs : List Signal) : SigFlags :=
  sigs.foldl deliver f

/-! ## Checkpoint load and dump (lines 43-105) -/

/-- Result of `LoadInitdCheckpoint`: the returned `bool`, the supervisor
afterwards and the events, or no return at all (the array of line 58 has a
negative length or overflows the stack). -/
inductive LoadResult (σ κ : Type) where
  | ret (ok : Bool) (service : Option σ) (trace : List (Event κ))
  | undefined (trace : List (Event κ))
deriving DecidableEq

/-- Source: `LoadInitdCheckpoint` (lines 43-73).  `service` is `none` for a
`NULL` pointer. -/
def LoadInitdCheckpoint {σ κ : Type} (api : InitdApi σ κ) (env : Env)
    (w : World) (service : Option σ) : LoadResult σ κ :=
  match service with
  | none => .ret false none []
  | some s =>
    let path := env.gce_initd_dump_file
    match w.ifstream path with
    | none => .ret false (some s) [.openRead path]
    | some (pos, content) =>
      if !env.openReadOk then .ret false (some s) [.openRead path]
      else
        let len : Int := toInt32 pos
        if len < 0 then .undefined [.openRead path]
        else if env.stackLimit < len.toNat then .undefined [.openRead path]
        else
          let temp_read_buffer := content.take len.toNat
          let pb_buffer := temp_read_buffer
          match api.ParseFromString pb_buffer with
          | none => .ret false (some s) [.openRead path]
          | some checkpoint =>
            let r := api.LoadProcessInfoCheckPoint s checkpoint
            .ret r.1 (some r.2)
              [.openRead path, .loadProcessInfoCheckPoint checkpoint]

/-- Source: `DumpInitdCheckpoint` (lines 75-105): the returned `bool`, the
events and the world afterwards.  The stream is not tested after the write of
line 101: the function returns true whatever part of the buffer is stored. -/
def DumpInitdCheckpoint {σ κ : Type} (api : InitdApi σ κ) (env : Env)
    (w : World) (service : Option σ) : Bool × List (Event κ) × World :=
  match service with
  | none => (false, [], w)
  | some s =>
    match api.DumpProcessInfoCheckPoint s with
    | none => (false, [.dumpProcessInfoCheckPoint], w)
    | some checkpoint =>
      match api.SerializeToString checkpoint with
      | none => (false, [.dumpProcessInfoCheckPoint], w)
      | some checkpoint_buffer =>
        let path := env.gce_initd_dump_file
        if !env.openWriteOk then
          (false, [.dumpProcessInfoCheckPoint, .openWrite path], w)
        else
          (true,
            [.dumpProcessInfoCheckPoint, .openWrite path,
             .writeFile path checkpoint_buffer],
            w.writeFile path (env.stored checkpoint_buffer))

/-! ## Namespace bootstrap (lines 107-132) -/

/-- Source: `MountProc`: the returned `bool`, the events and the world
afterwards. -/
def MountProc {κ : Type} (env : Env) (w : World) :
    Bool × List (Event κ) × World :=
  let cur_pid := env.pid
  if cur_pid ≠ 1 then (true, [.getpid], w)
  else
    match env.cwd with
    | none => (false, [.getpid, .getCwd], w)
    | some cwd =>
      let proc_path := cwd ++ "/proc/"
      if !env.mkdirOk then (false, [.getpid, .getCwd, .mkdir proc_path], w)
      else
        let w1 := w.Mkdir proc_path
        let t : List (Event κ) :=
          [.getpid, .getCwd, .mkdir proc_path, .mount "proc" proc_path "proc"]
        let w2 := if env.mountRet = 0 then w1.mount proc_path "proc" else w1
        if env.mountRet ≠ 0 ∧ env.mountErrno ≠ EBUSY then (false, t, w2)
        else (true, t, w2)

/-! ## The argument vector kept for the restart (lines 135-142, 205) -/

/-- The `strlen` of C: the number of bytes before the first zero byte. -/
def strlen (s : Bytes) : Nat :=
  (s.takeWhile (fun c => c != 0)).length

/-- The string a buffer holds: the bytes before the first zero byte. -/
def cstr (s : Bytes) : Bytes :=
  s.takeWhile (fun c => c != 0)

/-- The `strncpy` of C into a buffer of at least `n` bytes: the first `n`
bytes of the destination become the bytes of the source string, padded with
zero bytes when the string is shorter than `n`. -/
def strncpy (dst src : Bytes) (n : Nat) : Bytes :=
  let s := cstr src
  (s.take n ++ List.replicate (n - s.length) 0) ++ dst.drop n

/-- A `new char[n]`: `n` bytes of unspecified content. -/
def newCharArray (junk n : Nat) : Bytes :=
  List.replicate n junk

/-- The body of the loop of lines 138-142 for one argument: the buffer
`restart_argv[i]` points to afterwards. -/
def keepArg (junk : Nat) (arg : Bytes) : Bytes :=
  let b := newCharArray junk (strlen arg + 1)
  let b := strncpy b arg (strlen arg)
  b.set (strlen arg) 0

/-- Lines 136-142: the array `restart_argv` of `argc + 1` pointers after the
loop; the last slot is not assigned. -/
def keepArgv (junk : Nat) (argv : List Bytes) (argc : Nat) : List CharPtr :=
  (List.range argc).foldl
    (fun restart_argv i =>
      restart_argv.set i (.buf (keepArg junk (argv.getD i []))))
    (List.replicate (argc + 1) .uninit)

/-! ## `main` (lines 134-212) -/

/-- The retry loop of lines 174-185, `while (start_retry_times-- > 0)`:
`attempt` counts the calls of `Start` made before.  Returns `ret` and the
events. -/
def startLoop {κ : Type} (env : Env) (server_host : String) :
    (start_retry_times : Nat) → (attempt : Nat) → Bool × List (Event κ)
  | 0, _ => (false, [])
  | n + 1, attempt =>
    if !env.startOk attempt then
      let r := startLoop env server_host n (attempt + 1)
      (r.1, .rpcStart server_host :: .sleep 1000 :: r.2)
    else (true, [.rpcStart server_host])

/-- The polling loop of lines 195-197: the flags when the loop condition
fails and the number of `sleep(5)` before, or `none` when no flag is set
after the last signal. -/
def pollLoop : SigFlags → List (List Signal) → Option (SigFlags × Nat)
  | f, [] =>
    if !f.s_is_stop && !f.s_is_restart then none else some (f, 0)
  | f, during :: rest =>
    if !f.s_is_stop && !f.s_is_restart then
      match pollLoop (deliverAll f during) rest with
      | none => none
      | some (f1, n) => some (f1, n + 1)
    else some (f, 0)

/-- Lines 199-211, from the test of `s_is_restart`. -/
def mainRestart {σ κ : Type} (api : InitdApi σ κ) (env : Env) (w : World)
    (initd_service : Option σ) (restart_argv : List CharPtr)
    (restart_argc : Nat) (f : SigFlags) : Run κ :=
  if f.s_is_restart then
    Run.after [.rpcStop] <|
      match DumpInitdCheckpoint api env w initd_service with
      | (false, t, w1) => ⟨t, w1, .exit EXIT_FAILURE⟩
      | (true, t, w1) =>
        let restart_argv := restart_argv.set restart_argc .null
        ⟨t ++ [.execvp (restart_argv.getD 0 .uninit) restart_argv], w1,
          if env.execvpOk then .execed else .exit EXIT_FAILURE⟩
  else ⟨[], w, .exit EXIT_SUCCESS⟩

/-- Lines 191-211: the handlers are installed, the flags are polled, then
restart or stop. -/
def mainServe {σ κ : Type} (api : InitdApi σ κ) (env : Env) (w : World)
    (initd_service : Option σ) (restart_argv : List CharPtr)
    (restart_argc : Nat) : Run κ :=
  Run.after (installedHandlers.map (fun sh => .signal sh.1 sh.2)) <|
    match pollLoop ⟨false, false⟩ env.sleepSignals with
    | none =>
      ⟨List.replicate env.sleepSignals.length (.sleep 5), w, .polling⟩
    | some (f, n) =>
      Run.after (List.replicate n (.sleep 5)) <|
        mainRestart api env w initd_service restart_argv restart_argc
          (deliverAll f env.lateSignals)

/-- Lines 172-211: the server is started with a bounded number of attempts,
then `mainServe`. -/
def mainStart {σ κ : Type} (api : InitdApi σ κ) (env : Env) (w : World)
    (initd_service : Option σ) (restart_argv : List CharPtr)
    (restart_argc : Nat) : Run κ :=
  let server_host := "0.0.0.0:" ++ env.gce_initd_port
  let start_retry_times := MAX_START_TIMES
  match startLoop env server_host start_retry_times 0 with
  | (false, t) => ⟨t, w, .exit RPC_START_FAIL⟩
  | (true, t) =>
    Run.after t <|
      mainServe api env w initd_service restart_argv restart_argc

/-- Lines 165-211: the dump file is removed, the service registered, then
`mainStart`. -/
def mainAfterLoad {σ κ : Type} (api : InitdApi σ κ) (env : Env) (w : World)
    (initd_service : Option σ) (restart_argv : List CharPtr)
    (restart_argc : Nat) : Run κ :=
  let w1 := w.Remove env.gce_initd_dump_file
  Run.after [.remove env.gce_initd_dump_file, .registerService] <|
    if !env.registerOk then ⟨[], w1, .exit EXIT_FAILURE⟩
    else mainStart api env w1 initd_service restart_argv restart_argc

/-- Lines 159-163, then `mainAfterLoad`: the checkpoint is loaded when the
dump file exists. -/
def mainLoad {σ κ : Type} (api : InitdApi σ κ) (env : Env) (w : World)
    (initd_service : σ) (restart_argv : List CharPtr)
    (restart_argc : Nat) : Run κ :=
  let path := env.gce_initd_dump_file
  Run.after [.isExists path] <|
    if w.IsExists path then
      match LoadInitdCheckpoint api env w (some initd_service) with
      | .undefined t => ⟨t, w, .undefined⟩
      | .ret false _ t => ⟨t, w, .exit EXIT_FAILURE⟩
      | .ret true service t =>
        Run.after t <|
          mainAfterLoad api env w service restart_argv restart_argc
    else
      mainAfterLoad api env w (some initd_service) restart_argv restart_argc

/-- Source: `main`, started with the argument vector `argv` (each a buffer
with its terminating zero byte) in the world `w`. -/
def main {σ κ : Type} (api : InitdApi σ κ) (env : Env) (w : World)
    (argv : List Bytes) : Run κ :=
  let argc := argv.length
  let restart_argc := argc
  let restart_argv := keepArgv env.junk argv restart_argc
  let _argv := env.parseFlags argv
  Run.after [.parseCommandLineFlags] <|
    match MountProc env w with
    | (false, t, w1) => ⟨t, w1, .exit EXIT_FAILURE⟩
    | (true, t, w1) =>
      Run.after t <|
        let initd_service := api.Init api.create
        Run.after [.initdInit] <|
          if !initd_service.1 then ⟨[], w1, .exit EXIT_FAILURE⟩
          else mainLoad api env w1 initd_service.2 restart_argv restart_argc

/-! ## Vocabulary of the statements -/

/-- The place of an event in the text of `main`: 0 flag parsing, 1 namespace
bootstrap, 2 `Init`, 3 checkpoint load, 4 removal of the dump file, 5
registration, 6 start attempts and their `sleep(1000)`, 7 handler
installation, 8 the polling `sleep`, 9 `Stop`, 10 checkpoint dump, 11
`execvp`. -/
def Event.stage {κ : Type} : Event κ → Nat
  | .parseCommandLineFlags => 0
  | .getpid => 1
  | .getCwd => 1
  | .mkdir _ => 1
  | .mount _ _ _ => 1
  | .initdInit => 2
  | .isExists _ => 3
  | .openRead _ => 3
  | .loadProcessInfoCheckPoint _ => 3
  | .remove _ => 4
  | .registerService => 5
  | .rpcStart _ => 6
  | .sleep n => if n = 1000 then 6 else 8
  | .signal _ _ => 7
  | .rpcStop => 9
  | .dumpProcessInfoCheckPoint => 10
  | .openWrite _ => 10
  | .writeFile _ _ => 10
  | .execvp _ _ => 11

/-- Whether an event is a call of `rpc_server.Start`. -/
def Event.isRpcStart {κ : Type} : Event κ → Bool
  | .rpcStart _ => true
  | _ => false

/-- The number of calls of `rpc_server.Start` among some events. -/
def startAttempts {κ : Type} (t : List (Event κ)) : Nat :=
  t.countP Event.isRpcStart

/-- The events of `n` failed attempts of `Start`, each followed by its
`sleep(1000)`. -/
def failedAttempts {κ : Type} (server_host : String) : Nat → List (Event κ)
  | 0 => []
  | n + 1 =>
    .rpcStart server_host :: .sleep 1000 :: failedAttempts server_host n

/-- The events of the installation of the three handlers (lines 191-193). -/
def handlerEvents {κ : Type} : List (Event κ) :=
  [.signal .SIGTERM .StopSigHandler, .signal .SIGINT .StopSigHandler,
   .signal .SIGUSR1 .RestartSigHandler]

/-- The world after the namespace bootstrap of a run. -/
def worldAfterMount (env : Env) (w : World) : World :=
  (@MountProc Unit env w).2.2

/-- Whether the namespace bootstrap of a run returns true. -/
def mountOk (env : Env) (w : World) : Bool :=
  (@MountProc Unit env w).1

/-- The start of a run passes the namespace bootstrap and `Init` (lines
148-157). -/
def PassesInit {σ κ : Type} (api : InitdApi σ κ) (env : Env) (w : World) :
    Prop :=
  mountOk env w = true ∧ (api.Init api.create).1 = true

/-- The checkpoint step of a run (lines 159-163) passes: no dump file is
there, or `LoadInitdCheckpoint` returns true. -/
def LoadPasses {σ κ : Type} (api : InitdApi σ κ) (env : Env) (w : World) :
    Prop :=
  (worldAfterMount env w).IsExists env.gce_initd_dump_file = true →
    ∃ service t,
      LoadInitdCheckpoint api env (worldAfterMount env w)
        (some (api.Init api.create).2) = .ret true service t

/-- A run gets to the start attempts of line 177: bootstrap, `Init`,
checkpoint step and registration pass. -/
def ReachesStart {σ κ : Type} (api : InitdApi σ κ) (env : Env) (w : World) :
    Prop :=
  PassesInit api env w ∧ LoadPasses api env w ∧ env.registerOk = true

/-- A run gets to the installation of the handlers of line 191: it reaches
the start attempts and one of the `MAX_START_TIMES` attempts succeeds. -/
def ReachesServing {σ κ : Type} (api : InitdApi σ κ) (env : Env) (w : World) :
    Prop :=
  ReachesStart api env w ∧ ∃ k, k < MAX_START_TIMES ∧ env.startOk k = true

/-- The flags when the polling loop of a run exits, if it does. -/
def flagsAtLoopExit (env : Env) : Option SigFlags :=
  (pollLoop ⟨false, false⟩ env.sleepSignals).map (fun r => r.1)

/-- The flags when line 199 tests `s_is_restart`, if the polling loop exits. -/
def flagsAtRestartTest (env : Env) : Option SigFlags :=
  (flagsAtLoopExit env).map (fun f => deliverAll f env.lateSignals)

/-- The array `restart_argv` as line 206 passes it to `execvp`: the copies
made at the start of `main`, and `NULL` in the slot of index `argc`. -/
def restartArgv (junk : Nat) (argv : List Bytes) : List CharPtr :=
  (keepArgv junk argv argv.length).set argv.length .null

/-- A buffer that is a C string with its terminator: the last byte is the
only zero byte. -/
def isCString (a : Bytes) : Bool :=
  a.getLast? == some 0 && !a.dropLast.contains 0

/-! ## Concrete pieces used to run the model -/

/-- A supervisor whose table is a list of numbers and whose checkpoint message
is the same list; a message is one byte of length followed by the numbers. -/
def demoApi : InitdApi (List Nat) (List Nat) where
  create := []
  Init := fun s => (true, s)
  LoadProcessInfoCheckPoint := fun _ c => (true, c)
  DumpProcessInfoCheckPoint := fun s => some s
  ParseFromString := fun b =>
    match b with
    | [] => none
    | n :: rest => if rest.length = n then some rest else none
  SerializeToString := fun c => some (c.length :: c)

/-- An answer set in which every call succeeds; the process is not process 1,
`Start` succeeds at once, and a `SIGUSR1` arrives during the second sleep. -/
def demoEnv : Env where
  gce_initd_dump_file := "initd.dump"
  gce_initd_port := "8765"
  pid := 4242
  cwd := some "/home/galaxy"
  mkdirOk := true
  mountRet := 0
  mountErrno := 0
  openReadOk := true
  openWriteOk := true
  writeFails := none
  stackLimit := 8388608
  registerOk := true
  startOk := fun _ => true
  sleepSignals := [[], [.SIGUSR1]]
  lateSignals := []
  execvpOk := true
  junk := 205
  parseFlags := fun a => a.take 1

/-- A world without files. -/
def emptyWorld : World := ⟨[], [], []⟩

/-- The answers of `demoEnv` for process 1 whose `mount()` fails with
`EACCES`. -/
def pid1Env : Env :=
  { demoEnv with pid := 1, mountRet := -1, mountErrno := 13 }

/-- The answers of `demoEnv` with every `Start` failing. -/
def bindFailEnv : Env :=
  { demoEnv with startOk := fun _ => false }

/-- The answers of `demoEnv` with `SIGTERM` and `SIGUSR1` both delivered
during the first sleep. -/
def bothSignalsEnv : Env :=
  { demoEnv with sleepSignals := [[.SIGTERM, .SIGUSR1]] }

/-- The answers of `demoEnv` with a `SIGTERM` during the second sleep and no
other signal. -/
def stopEnv : Env :=
  { demoEnv with sleepSignals := [[], [.SIGTERM]] }

/-- The answers of `demoEnv` with a dump file that cannot be opened for
reading. -/
def unreadableEnv : Env :=
  { demoEnv with openReadOk := false }

/-- The answers of `demoEnv` with the first 14 calls of `Start` failing and
the 15th succeeding. -/
def retryEnv : Env :=
  { demoEnv with startOk := fun i => decide (14 ≤ i) }

/-- A world whose dump file does not parse. -/
def corruptWorld : World := ⟨[("initd.dump", [9])], [], []⟩

/-- A world whose dump file holds the table `[7, 8]`. -/
def dumpedWorld : World := ⟨[("initd.dump", [2, 7, 8])], [], []⟩

/-- An argument vector `initd --gce_initd_port=1`, abbreviated to byte values. -/
def demoArgv : List Bytes := [[105, 110, 105, 116, 100, 0], [45, 45, 112, 0]]

/-! ## Runs and their parts -/

@[simp] theorem Run.after_trace {κ : Type} (t : List (Event κ)) (r : Run κ) :
    (Run.after t r).trace = t ++ r.trace := rfl

@[simp] theorem Run.after_world {κ : Type} (t : List (Event κ)) (r : Run κ) :
    (Run.after t r).world = r.world := rfl

@[simp] theorem Run.after_outcome {κ : Type} (t : List (Event κ)) (r : Run κ) :
    (Run.after t r).outcome = r.outcome := rfl

theorem Run.after_after {κ : Type} (t u : List (Event κ)) (r : Run κ) :
    Run.after t (Run.after u r) = Run.after (t ++ u) r := by
  simp [Run.after]

/-- The result of the namespace bootstrap does not depend on the type of the
checkpoint message. -/
theorem MountProc_fst {κ : Type} (env : Env) (w : World) :
    (@MountProc κ env w).1 = mountOk env w := by
  by_cases hp : env.pid = 1 <;> cases hc : env.cwd <;>
    cases hm : env.mkdirOk <;> simp [MountProc, mountOk, hp, hc, hm] <;>
    split_ifs <;> rfl

theorem MountProc_world {κ : Type} (env : Env) (w : World) :
    (@MountProc κ env w).2.2 = worldAfterMount env w := by
  by_cases hp : env.pid = 1 <;> cases hc : env.cwd <;>
    cases hm : env.mkdirOk <;> simp [MountProc, worldAfterMount, hp, hc, hm] <;>
    split_ifs <;> rfl

/-- Every event of the namespace bootstrap belongs to stage 1. -/
theorem MountProc_stage {κ : Type} (env : Env) (w : World) :
    ∀ e ∈ (@MountProc κ env w).2.1, e.stage = 1 := by
  have h : (@MountProc κ env w).2.1.all (fun e => e.stage == 1) = true := by
    by_cases hp : env.pid = 1 <;> cases hc : env.cwd <;>
      cases hm : env.mkdirOk <;> simp [MountProc, hp, hc, hm, Event.stage] <;>
      split_ifs <;> simp [Event.stage]
  intro e he
  simpa using (List.all_eq_true.mp h) e he

/-! ## The start attempts -/

theorem startAttempts_append {κ : Type} (t u : List (Event κ)) :
    startAttempts (t ++ u) = startAttempts t + startAttempts u := by
  simp [startAttempts]

theorem startAttempts_failedAttempts {κ : Type} (host : String) (n : Nat) :
    startAttempts (@failedAttempts κ host n) = n := by
  induction n with
  | zero => rfl
  | succ n ih =>
    simp only [failedAttempts, startAttempts] at ih ⊢
    simp [List.countP_cons, Event.isRpcStart, ih]

/-- No attempt when no event belongs to stage 6. -/
theorem startAttempts_eq_zero {κ : Type} (t : List (Event κ))
    (h : ∀ e ∈ t, e.stage ≠ 6) : startAttempts t = 0 := by
  unfold startAttempts
  rw [List.countP_eq_zero]
  intro e he
  have := h e he
  cases e <;> simp_all [Event.isRpcStart, Event.stage]

/-- The loop when every attempt fails: `ret` stays false after
`start_retry_times` attempts. -/
theorem startLoop_all_fail {κ : Type} (env : Env) (host : String) :
    ∀ n a, (∀ i, i < n → env.startOk (a + i) = false) →
      @startLoop κ env host n a = (false, failedAttempts host n) := by
  intro n
  induction n with
  | zero => intro a _; rfl
  | succ n ih =>
    intro a h
    have h0 : env.startOk a = false := by simpa using h 0 (Nat.succ_pos n)
    have hrest : ∀ i, i < n → env.startOk (a + 1 + i) = false := by
      intro i hi
      have := h (i + 1) (Nat.succ_lt_succ hi)
      simpa [Nat.add_assoc, Nat.add_comm 1 i] using this
    simp [startLoop, h0, ih (a + 1) hrest, failedAttempts]

/-- The loop when attempt `k` is the first to succeed. -/
theorem startLoop_first_success {κ : Type} (env : Env) (host : String) :
    ∀ n a k, k < n → (∀ i, i < k → env.startOk (a + i) = false) →
      env.startOk (a + k) = true →
      @startLoop κ env host n a
        = (true, failedAttempts host k ++ [.rpcStart host]) := by
  intro n
  induction n with
  | zero => intro a k hk; exact absurd hk (Nat.not_lt_zero k)
  | succ n ih =>
    intro a k hk hfail hok
    cases k with
    | zero =>
      have : env.startOk a = true := by simpa using hok
      simp [startLoop, this, failedAttempts]
    | succ k =>
      have h0 : env.startOk a = false := by simpa using hfail 0 (Nat.succ_pos k)
      have hrest : ∀ i, i < k → env.startOk (a + 1 + i) = false := by
        intro i hi
        have := hfail (i + 1) (Nat.succ_lt_succ hi)
        simpa [Nat.add_assoc, Nat.add_comm 1 i] using this
      have hok1 : env.startOk (a + 1 + k) = true := by
        simpa [Nat.add_assoc, Nat.add_comm 1 k] using hok
      simp [startLoop, h0, ih (a + 1) k (Nat.lt_of_succ_lt_succ hk) hrest hok1,
        failedAttempts]

/-- The loop never calls `Start` more often than `start_retry_times`. -/
theorem startLoop_attempts_le {κ : Type} (env : Env) (host : String) :
    ∀ n a, startAttempts (@startLoop κ env host n a).2 ≤ n := by
  intro n
  induction n with
  | zero => intro a; simp [startLoop, startAttempts]
  | succ n ih =>
    intro a
    cases h0 : env.startOk a
    · have := ih (a + 1)
      simp only [startAttempts] at this ⊢
      simp [startLoop, h0, List.countP_cons, Event.isRpcStart]
      omega
    · simp [startLoop, h0, startAttempts, List.countP_cons, Event.isRpcStart]

/-- When `ret` stays false, every one of the attempts failed. -/
theorem startLoop_false {κ : Type} (env : Env) (host : String) :
    ∀ n a, (@startLoop κ env host n a).1 = false →
      @startLoop κ env host n a = (false, failedAttempts host n) ∧
      ∀ i, i < n → env.startOk (a + i) = false := by
  intro n
  induction n with
  | zero => intro a _; exact ⟨rfl, fun i hi => absurd hi (Nat.not_lt_zero i)⟩
  | succ n ih =>
    intro a h
    cases h0 : env.startOk a
    · have h1 : (@startLoop κ env host n (a + 1)).1 = false := by
        simpa [startLoop, h0] using h
      obtain ⟨heq, hall⟩ := ih (a + 1) h1
      refine ⟨by simp [startLoop, h0, heq, failedAttempts], ?_⟩
      intro i hi
      cases i with
      | zero => simpa using h0
      | succ i =>
        have := hall i (Nat.lt_of_succ_lt_succ hi)
        simpa [Nat.add_assoc, Nat.add_comm 1 i] using this
    · simp [startLoop, h0] at h

/-- Every event of the loop belongs to stage 6. -/
theorem startLoop_stage {κ : Type} (env : Env) (host : String) :
    ∀ n a, ∀ e ∈ (@startLoop κ env host n a).2, e.stage = 6 := by
  intro n
  induction n with
  | zero => intro a e he; simp [startLoop] at he
  | succ n ih =>
    intro a e he
    cases h0 : env.startOk a
    · simp [startLoop, h0] at he
      rcases he with h | h | h
      · subst h; rfl
      · subst h; rfl
      · exact ih (a + 1) e h
    · simp [startLoop, h0] at he
      subst he; rfl

/-! ## The shape of a run, phase by phase -/

/-- The three components of the result of the namespace bootstrap. -/
theorem MountProc_eq {κ : Type} (env : Env) (w : World) :
    @MountProc κ env w
      = (mountOk env w, (@MountProc κ env w).2.1, worldAfterMount env w) := by
  rw [← MountProc_fst, ← MountProc_world]

/-- A run in which the namespace bootstrap fails. -/
theorem main_of_mount_fail {σ κ : Type} (api : InitdApi σ κ) (env : Env)
    (w : World) (argv : List Bytes) (h : mountOk env w = false) :
    main api env w argv
      = ⟨.parseCommandLineFlags :: (@MountProc κ env w).2.1,
          worldAfterMount env w, .exit EXIT_FAILURE⟩ := by
  unfold main
  rw [MountProc_eq, h]
  simp [Run.after]

/-- A run in which the namespace bootstrap passes and `Init` fails. -/
theorem main_of_init_fail {σ κ : Type} (api : InitdApi σ κ) (env : Env)
    (w : World) (argv : List Bytes) (hm : mountOk env w = true)
    (hi : (api.Init api.create).1 = false) :
    main api env w argv
      = ⟨.parseCommandLineFlags :: (@MountProc κ env w).2.1 ++ [.initdInit],
          worldAfterMount env w, .exit EXIT_FAILURE⟩ := by
  unfold main
  rw [MountProc_eq, hm]
  simp [Run.after, hi]

/-- A run that passes the namespace bootstrap and `Init` goes on with the
checkpoint step. -/
theorem main_of_passesInit {σ κ : Type} (api : InitdApi σ κ) (env : Env)
    (w : World) (argv : List Bytes) (h : PassesInit api env w) :
    main api env w argv
      = Run.after (.parseCommandLineFlags :: (@MountProc κ env w).2.1
            ++ [.initdInit])
          (mainLoad api env (worldAfterMount env w) (api.Init api.create).2
            (keepArgv env.junk argv argv.length) argv.length) := by
  obtain ⟨hm, hi⟩ := h
  unfold main
  rw [MountProc_eq, hm]
  simp [Run.after, hi]

/-- Every event before the checkpoint step belongs to a stage up to 2. -/
theorem stage_before_load {κ : Type} (env : Env) (w : World) :
    ∀ e ∈ (.parseCommandLineFlags :: (@MountProc κ env w).2.1
        ++ [.initdInit] : List (Event κ)), e.stage ≤ 2 := by
  intro e he
  simp only [List.cons_append, List.mem_cons, List.mem_append,
    List.mem_singleton, List.not_mem_nil, or_false] at he
  rcases he with h | h | h
  · subst h; simp [Event.stage]
  · rw [MountProc_stage env w e h]; decide
  · subst h; simp [Event.stage]

/-- The events of `LoadInitdCheckpoint`, whatever it returns: none, the
opening of the dump file, or the opening and the call of the supervisor. -/
theorem LoadInitdCheckpoint_trace {σ κ : Type} (api : InitdApi σ κ)
    (env : Env) (w : World) (service : Option σ) :
    ∃ t : List (Event κ),
      (t = [] ∨ t = [.openRead env.gce_initd_dump_file] ∨
        ∃ c, t = [.openRead env.gce_initd_dump_file,
          .loadProcessInfoCheckPoint c]) ∧
      ((∃ ok s, LoadInitdCheckpoint api env w service = .ret ok s t) ∨
        LoadInitdCheckpoint api env w service = .undefined t) := by
  cases service with
  | none => exact ⟨[], Or.inl rfl, Or.inl ⟨false, none, rfl⟩⟩
  | some s =>
    cases hr : w.ifstream env.gce_initd_dump_file with
    | none =>
      exact ⟨_, Or.inr (Or.inl rfl), Or.inl ⟨false, some s, by
        simp [LoadInitdCheckpoint, hr]⟩⟩
    | some found =>
      obtain ⟨pos, content⟩ := found
      cases ho : env.openReadOk with
      | false =>
        exact ⟨_, Or.inr (Or.inl rfl), Or.inl ⟨false, some s, by
          simp [LoadInitdCheckpoint, hr, ho]⟩⟩
      | true =>
        by_cases hl : toInt32 pos < 0
        · exact ⟨_, Or.inr (Or.inl rfl), Or.inr (by
            simp [LoadInitdCheckpoint, hr, ho, hl])⟩
        · by_cases hk : env.stackLimit < (toInt32 pos).toNat
          · exact ⟨_, Or.inr (Or.inl rfl), Or.inr (by
              simp [LoadInitdCheckpoint, hr, ho, hl, hk])⟩
          · cases hp : api.ParseFromString
                (content.take (toInt32 pos).toNat) with
            | none =>
              exact ⟨_, Or.inr (Or.inl rfl), Or.inl ⟨false, some s, by
                simp [LoadInitdCheckpoint, hr, ho, hl, hk, hp]⟩⟩
            | some c =>
              exact ⟨_, Or.inr (Or.inr ⟨c, rfl⟩),
                Or.inl ⟨(api.LoadProcessInfoCheckPoint s c).1,
                  some (api.LoadProcessInfoCheckPoint s c).2, by
                    simp [LoadInitdCheckpoint, hr, ho, hl, hk, hp]⟩⟩

/-- Every event of `LoadInitdCheckpoint` belongs to stage 3. -/
theorem LoadInitdCheckpoint_stage {σ κ : Type} (api : InitdApi σ κ)
    (env : Env) (w : World) (service : Option σ) :
    (∀ ok s t, LoadInitdCheckpoint api env w service = .ret ok s t →
      ∀ e ∈ t, e.stage = 3) ∧
    (∀ t, LoadInitdCheckpoint api env w service = .undefined t →
      ∀ e ∈ t, e.stage = 3) := by
  have key : ∀ t : List (Event κ),
      (t = [] ∨ t = [.openRead env.gce_initd_dump_file] ∨
        ∃ c, t = [.openRead env.gce_initd_dump_file,
          .loadProcessInfoCheckPoint c]) → ∀ e ∈ t, e.stage = 3 := by
    intro t ht e he
    rcases ht with h | h | ⟨c, h⟩ <;> subst h <;> simp at he
    · subst he; rfl
    · rcases he with h | h <;> subst h <;> rfl
  obtain ⟨t0, hshape, hres⟩ := LoadInitdCheckpoint_trace api env w service
  constructor
  · intro ok s t h
    rcases hres with ⟨ok1, s1, h1⟩ | h1
    · rw [h1] at h; cases h; exact key _ hshape
    · rw [h1] at h; cases h
  · intro t h
    rcases hres with ⟨ok1, s1, h1⟩ | h1
    · rw [h1] at h; cases h
    · rw [h1] at h; cases h; exact key _ hshape

/-- The checkpoint step when no dump file is there. -/
theorem mainLoad_of_absent {σ κ : Type} (api : InitdApi σ κ) (env : Env)
    (w : World) (s : σ) (rav : List CharPtr) (argc : Nat)
    (h : w.IsExists env.gce_initd_dump_file = false) :
    mainLoad api env w s rav argc
      = Run.after [.isExists env.gce_initd_dump_file]
          (mainAfterLoad api env w (some s) rav argc) := by
  simp [mainLoad, h]

/-- The checkpoint step when the dump file is there and the load returns
true. -/
theorem mainLoad_of_loaded {σ κ : Type} (api : InitdApi σ κ) (env : Env)
    (w : World) (s : σ) (rav : List CharPtr) (argc : Nat)
    (service : Option σ) (t : List (Event κ))
    (h : w.IsExists env.gce_initd_dump_file = true)
    (hl : LoadInitdCheckpoint api env w (some s) = .ret true service t) :
    mainLoad api env w s rav argc
      = Run.after (.isExists env.gce_initd_dump_file :: t)
          (mainAfterLoad api env w service rav argc) := by
  simp [mainLoad, h, hl, Run.after_after]

/-- The checkpoint step when the dump file is there and the load returns
false: `main` returns `EXIT_FAILURE` on line 162. -/
theorem mainLoad_of_load_fail {σ κ : Type} (api : InitdApi σ κ) (env : Env)
    (w : World) (s : σ) (rav : List CharPtr) (argc : Nat)
    (service : Option σ) (t : List (Event κ))
    (h : w.IsExists env.gce_initd_dump_file = true)
    (hl : LoadInitdCheckpoint api env w (some s) = .ret false service t) :
    mainLoad api env w s rav argc
      = ⟨.isExists env.gce_initd_dump_file :: t, w, .exit EXIT_FAILURE⟩ := by
  simp [mainLoad, h, hl, Run.after]

/-- The checkpoint step when the length of the dump file wraps to a negative
`int`. -/
theorem mainLoad_of_load_undefined {σ κ : Type} (api : InitdApi σ κ)
    (env : Env) (w : World) (s : σ) (rav : List CharPtr) (argc : Nat)
    (t : List (Event κ))
    (h : w.IsExists env.gce_initd_dump_file = true)
    (hl : LoadInitdCheckpoint api env w (some s) = .undefined t) :
    mainLoad api env w s rav argc
      = ⟨.isExists env.gce_initd_dump_file :: t, w, .undefined⟩ := by
  simp [mainLoad, h, hl, Run.after]

/-- Lines 165-170 when the registration passes. -/
theorem mainAfterLoad_of_registered {σ κ : Type} (api : InitdApi σ κ)
    (env : Env) (w : World) (service : Option σ) (rav : List CharPtr)
    (argc : Nat) (h : env.registerOk = true) :
    mainAfterLoad api env w service rav argc
      = Run.after [.remove env.gce_initd_dump_file, .registerService]
          (mainStart api env (w.Remove env.gce_initd_dump_file) service rav
            argc) := by
  simp [mainAfterLoad, h]

/-- Lines 165-170 when the registration fails. -/
theorem mainAfterLoad_of_register_fail {σ κ : Type} (api : InitdApi σ κ)
    (env : Env) (w : World) (service : Option σ) (rav : List CharPtr)
    (argc : Nat) (h : env.registerOk = false) :
    mainAfterLoad api env w service rav argc
      = ⟨[.remove env.gce_initd_dump_file, .registerService],
          w.Remove env.gce_initd_dump_file, .exit EXIT_FAILURE⟩ := by
  simp [mainAfterLoad, h, Run.after]

/-- The start phase when attempt `k` is the first to succeed. -/
theorem mainStart_of_first_success {σ κ : Type} (api : InitdApi σ κ)
    (env : Env) (w : World) (service : Option σ) (rav : List CharPtr)
    (argc k : Nat) (hk : k < MAX_START_TIMES)
    (hfail : ∀ i, i < k → env.startOk i = false)
    (hok : env.startOk k = true) :
    mainStart api env w service rav argc
      = Run.after
          (failedAttempts ("0.0.0.0:" ++ env.gce_initd_port) k
            ++ [.rpcStart ("0.0.0.0:" ++ env.gce_initd_port)])
          (mainServe api env w service rav argc) := by
  have h := @startLoop_first_success κ env ("0.0.0.0:" ++ env.gce_initd_port)
    MAX_START_TIMES 0 k hk (by simpa using hfail) (by simpa using hok)
  simp only [mainStart, h]

/-- The start phase when every attempt fails. -/
theorem mainStart_of_all_fail {σ κ : Type} (api : InitdApi σ κ)
    (env : Env) (w : World) (service : Option σ) (rav : List CharPtr)
    (argc : Nat) (hfail : ∀ i, i < MAX_START_TIMES → env.startOk i = false) :
    mainStart api env w service rav argc
      = ⟨failedAttempts ("0.0.0.0:" ++ env.gce_initd_port) MAX_START_TIMES,
          w, .exit RPC_START_FAIL⟩ := by
  have h := @startLoop_all_fail κ env ("0.0.0.0:" ++ env.gce_initd_port)
    MAX_START_TIMES 0 (by simpa using hfail)
  simp only [mainStart, h]

/-- The serving phase when the polling loop exits. -/
theorem mainServe_of_exit {σ κ : Type} (api : InitdApi σ κ)
    (env : Env) (w : World) (service : Option σ) (rav : List CharPtr)
    (argc : Nat) (f : SigFlags) (n : Nat)
    (h : pollLoop ⟨false, false⟩ env.sleepSignals = some (f, n)) :
    mainServe api env w service rav argc
      = Run.after (handlerEvents ++ List.replicate n (.sleep 5))
          (mainRestart api env w service rav argc
            (deliverAll f env.lateSignals)) := by
  simp [mainServe, h, Run.after_after, handlerEvents, installedHandlers]

/-- A load on a supervisor that is there returns with a supervisor that is
there. -/
theorem LoadInitdCheckpoint_some {σ κ : Type} (api : InitdApi σ κ)
    (env : Env) (w : World) (s : σ) (ok : Bool) (service : Option σ)
    (t : List (Event κ))
    (h : LoadInitdCheckpoint api env w (some s) = .ret ok service t) :
    ∃ s1, service = some s1 := by
  cases hr : w.ifstream env.gce_initd_dump_file with
  | none =>
    simp [LoadInitdCheckpoint, hr] at h
    exact ⟨s, h.2.1.symm⟩
  | some found =>
    obtain ⟨pos, content⟩ := found
    cases ho : env.openReadOk with
    | false =>
      simp [LoadInitdCheckpoint, hr, ho] at h
      exact ⟨s, h.2.1.symm⟩
    | true =>
      by_cases hl : toInt32 pos < 0
      · simp [LoadInitdCheckpoint, hr, ho, hl] at h
      · by_cases hk : env.stackLimit < (toInt32 pos).toNat
        · simp [LoadInitdCheckpoint, hr, ho, hl, hk] at h
        · cases hp : api.ParseFromString
              (content.take (toInt32 pos).toNat) with
          | none =>
            simp [LoadInitdCheckpoint, hr, ho, hl, hk, hp] at h
            exact ⟨s, h.2.1.symm⟩
          | some c =>
            simp [LoadInitdCheckpoint, hr, ho, hl, hk, hp] at h
            exact ⟨_, h.2.1.symm⟩

/-- A run that reaches the start attempts: the events before belong to the
stages up to 5, the last two being the removal of the dump file and the
registration. -/
theorem main_of_reachesStart {σ κ : Type} (api : InitdApi σ κ) (env : Env)
    (w : World) (argv : List Bytes) (h : ReachesStart api env w) :
    ∃ (t : List (Event κ)) (s : σ),
      main api env w argv
        = Run.after (t ++ [.remove env.gce_initd_dump_file, .registerService])
            (mainStart api env
              ((worldAfterMount env w).Remove env.gce_initd_dump_file)
              (some s) (keepArgv env.junk argv argv.length) argv.length) ∧
      ∀ e ∈ t, e.stage ≤ 3 := by
  obtain ⟨hinit, hload, hreg⟩ := h
  rw [main_of_passesInit api env w argv hinit]
  cases hex : (worldAfterMount env w).IsExists env.gce_initd_dump_file with
  | false =>
    refine ⟨(.parseCommandLineFlags :: (@MountProc κ env w).2.1
      ++ [.initdInit]) ++ [.isExists env.gce_initd_dump_file],
      (api.Init api.create).2, ?_, ?_⟩
    · rw [mainLoad_of_absent _ _ _ _ _ _ hex,
        mainAfterLoad_of_registered _ _ _ _ _ _ hreg]
      simp [Run.after_after]
    · intro e he
      rw [List.mem_append] at he
      rcases he with he | he
      · exact Nat.le_trans (stage_before_load env w e he) (by decide)
      · simp at he; subst he; simp [Event.stage]
  | true =>
    obtain ⟨service, t, hl⟩ := hload hex
    obtain ⟨s1, hs1⟩ := LoadInitdCheckpoint_some api env _ _ _ _ _ hl
    subst hs1
    refine ⟨(.parseCommandLineFlags :: (@MountProc κ env w).2.1
      ++ [.initdInit]) ++ (.isExists env.gce_initd_dump_file :: t),
      s1, ?_, ?_⟩
    · rw [mainLoad_of_loaded _ _ _ _ _ _ _ _ hex hl,
        mainAfterLoad_of_registered _ _ _ _ _ _ hreg]
      simp [Run.after_after]
    · intro e he
      rw [List.mem_append] at he
      rcases he with he | he
      · exact Nat.le_trans (stage_before_load env w e he) (by decide)
      · rw [List.mem_cons] at he
        rcases he with he | he
        · subst he; simp [Event.stage]
        · rw [(LoadInitdCheckpoint_stage api env _ _).1 _ _ _ hl e he]

/-! ## Every run, phase by phase -/

/-- A run with no event of its own: `Run.after` with the whole trace. -/
theorem Run.eq_after_nil {κ : Type} (t : List (Event κ)) (w : World)
    (o : Outcome) : (⟨t, w, o⟩ : Run κ) = Run.after t ⟨[], w, o⟩ := by
  simp [Run.after]

/-- The result of `DumpInitdCheckpoint`, whatever it returns: the events are
the call of the supervisor, then the opening, then the writing; the world
changes only when it returns true. -/
theorem DumpInitdCheckpoint_cases {σ κ : Type} (api : InitdApi σ κ)
    (env : Env) (w : World) (service : Option σ) :
    (∃ t : List (Event κ), DumpInitdCheckpoint api env w service = (false, t, w)
      ∧ (t = [] ∨ t = [.dumpProcessInfoCheckPoint] ∨
          t = [.dumpProcessInfoCheckPoint,
            .openWrite env.gce_initd_dump_file])) ∨
    (∃ s c b, service = some s ∧ api.DumpProcessInfoCheckPoint s = some c ∧
      api.SerializeToString c = some b ∧ env.openWriteOk = true ∧
      DumpInitdCheckpoint api env w service
        = (true,
            [.dumpProcessInfoCheckPoint, .openWrite env.gce_initd_dump_file,
             .writeFile env.gce_initd_dump_file b],
            w.writeFile env.gce_initd_dump_file (env.stored b))) := by
  cases service with
  | none => exact Or.inl ⟨[], rfl, Or.inl rfl⟩
  | some s =>
    cases hd : api.DumpProcessInfoCheckPoint s with
    | none =>
      exact Or.inl ⟨_, by simp [DumpInitdCheckpoint, hd], Or.inr (Or.inl rfl)⟩
    | some c =>
      cases hs : api.SerializeToString c with
      | none =>
        exact Or.inl ⟨_, by simp [DumpInitdCheckpoint, hd, hs],
          Or.inr (Or.inl rfl)⟩
      | some b =>
        cases ho : env.openWriteOk with
        | false =>
          exact Or.inl ⟨_, by simp [DumpInitdCheckpoint, hd, hs, ho],
            Or.inr (Or.inr rfl)⟩
        | true =>
          exact Or.inr ⟨s, c, b, rfl, hd, hs, rfl, by
            simp [DumpInitdCheckpoint, hd, hs, ho]⟩

/-- Every event of `DumpInitdCheckpoint` belongs to stage 10. -/
theorem DumpInitdCheckpoint_stage {σ κ : Type} (api : InitdApi σ κ)
    (env : Env) (w : World) (service : Option σ) :
    ∀ e ∈ (DumpInitdCheckpoint api env w service).2.1, e.stage = 10 := by
  intro e he
  rcases DumpInitdCheckpoint_cases api env w service with
    ⟨t, h, ht⟩ | ⟨s, c, b, _, _, _, _, h⟩
  · rw [h] at he
    rcases ht with ht | ht | ht <;> subst ht <;> simp at he
    · subst he; rfl
    · rcases he with he | he <;> subst he <;> rfl
  · rw [h] at he
    simp at he
    rcases he with he | he | he <;> subst he <;> rfl

/-- The last phase of every run: the events belong to the stages from 9 on,
and the value returned, if any, is `EXIT_SUCCESS` or `EXIT_FAILURE`. -/
theorem mainRestart_any {σ κ : Type} (api : InitdApi σ κ) (env : Env)
    (w : World) (service : Option σ) (rav : List CharPtr) (argc : Nat)
    (f : SigFlags) :
    (∀ e ∈ (mainRestart api env w service rav argc f).trace, 9 ≤ e.stage) ∧
    (∀ code, (mainRestart api env w service rav argc f).outcome = .exit code →
      code = EXIT_SUCCESS ∨ code = EXIT_FAILURE) := by
  cases hf : f.s_is_restart with
  | false =>
    simp [mainRestart, hf]
  | true =>
    have hst := DumpInitdCheckpoint_stage api env w service
    rcases hd : DumpInitdCheckpoint api env w service with ⟨ok, t, w1⟩
    rw [hd] at hst
    cases ok with
    | false =>
      simp only [mainRestart, hf, hd, if_true, Run.after_trace,
        Run.after_outcome]
      refine ⟨?_, ?_⟩
      · intro e he
        simp at he
        rcases he with he | he
        · subst he; simp [Event.stage]
        · rw [hst e he]; decide
      · intro code h; cases h; exact Or.inr rfl
    | true =>
      simp only [mainRestart, hf, hd, if_true, Run.after_trace,
        Run.after_outcome]
      refine ⟨?_, ?_⟩
      · intro e he
        simp at he
        rcases he with he | he | he
        · subst he; simp [Event.stage]
        · rw [hst e he]; decide
        · subst he; simp [Event.stage]
      · intro code h
        cases hx : env.execvpOk <;> simp [hx] at h
        exact Or.inr h.symm

/-- Every event of the handler installation and of the polling belongs to
stage 7 or 8. -/
theorem stage_serving {κ : Type} (n : Nat) :
    ∀ e ∈ (handlerEvents ++ List.replicate n (.sleep 5) : List (Event κ)),
      7 ≤ e.stage ∧ e.stage ≤ 8 := by
  intro e he
  rw [List.mem_append] at he
  rcases he with he | he
  · simp [handlerEvents] at he
    rcases he with he | he | he <;> subst he <;> simp [Event.stage]
  · rw [List.eq_of_mem_replicate he]; simp [Event.stage]

/-- The serving phase of every run: either the polling goes on for ever, or
the run goes on with line 199 under the flags of that moment. -/
theorem mainServe_any {σ κ : Type} (api : InitdApi σ κ) (env : Env)
    (w : World) (service : Option σ) (rav : List CharPtr) (argc : Nat) :
    ∃ n : Nat,
      (flagsAtRestartTest env = none ∧
        mainServe api env w service rav argc
          = Run.after (handlerEvents ++ List.replicate n (.sleep 5))
              ⟨[], w, .polling⟩) ∨
      (∃ f, flagsAtRestartTest env = some f ∧
        mainServe api env w service rav argc
          = Run.after (handlerEvents ++ List.replicate n (.sleep 5))
              (mainRestart api env w service rav argc f)) := by
  cases hp : pollLoop ⟨false, false⟩ env.sleepSignals with
  | none =>
    refine ⟨env.sleepSignals.length, Or.inl ⟨?_, ?_⟩⟩
    · simp [flagsAtRestartTest, flagsAtLoopExit, hp]
    · simp [mainServe, hp, Run.after, handlerEvents, installedHandlers]
  | some r =>
    obtain ⟨f, n⟩ := r
    refine ⟨n, Or.inr ⟨deliverAll f env.lateSignals, ?_, ?_⟩⟩
    · simp [flagsAtRestartTest, flagsAtLoopExit, hp]
    · exact mainServe_of_exit api env w service rav argc f n hp

/-- The start phase of every run: at most `MAX_START_TIMES` attempts; then
`RPC_START_FAIL` when all of them failed, the serving phase otherwise. -/
theorem mainStart_any {σ κ : Type} (api : InitdApi σ κ) (env : Env)
    (w : World) (service : Option σ) (rav : List CharPtr) (argc : Nat) :
    ∃ t : List (Event κ), (∀ e ∈ t, e.stage = 6) ∧
      startAttempts t ≤ MAX_START_TIMES ∧
      (((∀ i, i < MAX_START_TIMES → env.startOk i = false) ∧
          mainStart api env w service rav argc
            = Run.after t ⟨[], w, .exit RPC_START_FAIL⟩) ∨
        mainStart api env w service rav argc
          = Run.after t (mainServe api env w service rav argc)) := by
  have hst := @startLoop_stage κ env ("0.0.0.0:" ++ env.gce_initd_port)
    MAX_START_TIMES 0
  have hle := @startLoop_attempts_le κ env ("0.0.0.0:" ++ env.gce_initd_port)
    MAX_START_TIMES 0
  rcases hl : @startLoop κ env ("0.0.0.0:" ++ env.gce_initd_port)
    MAX_START_TIMES 0 with ⟨ok, t⟩
  rw [hl] at hst hle
  refine ⟨t, hst, hle, ?_⟩
  cases ok with
  | false =>
    left
    have h := @startLoop_false κ env ("0.0.0.0:" ++ env.gce_initd_port)
      MAX_START_TIMES 0 (by rw [hl])
    refine ⟨by simpa using h.2, ?_⟩
    simp [mainStart, hl, Run.after]
  | true =>
    right
    simp [mainStart, hl]

/-- The start of every run: after events of the stages up to 5, `main`
returns `EXIT_FAILURE`, or runs into the negative array length, or reaches
the start attempts. -/
theorem main_any {σ κ : Type} (api : InitdApi σ κ) (env : Env) (w : World)
    (argv : List Bytes) :
    ∃ t : List (Event κ), (∀ e ∈ t, e.stage ≤ 5) ∧
      ((∃ w1, main api env w argv = Run.after t ⟨[], w1, .exit EXIT_FAILURE⟩) ∨
        (∃ w1, main api env w argv = Run.after t ⟨[], w1, .undefined⟩) ∨
        (ReachesStart api env w ∧ ∃ w1 service,
          main api env w argv
            = Run.after t (mainStart api env w1 service
                (keepArgv env.junk argv argv.length) argv.length))) := by
  have hmono : ∀ t : List (Event κ), (∀ e ∈ t, e.stage ≤ 2) →
      ∀ e ∈ t, e.stage ≤ 5 :=
    fun t h e he => Nat.le_trans (h e he) (by decide)
  cases hm : mountOk env w with
  | false =>
    refine ⟨.parseCommandLineFlags :: (@MountProc κ env w).2.1, ?_,
      Or.inl ⟨worldAfterMount env w, ?_⟩⟩
    · intro e he
      exact hmono (.parseCommandLineFlags :: (@MountProc κ env w).2.1
        ++ [.initdInit]) (stage_before_load env w) e (by
          simp only [List.cons_append, List.mem_cons, List.mem_append] at he ⊢
          rcases he with he | he
          · exact Or.inl he
          · exact Or.inr (Or.inl he))
    · rw [main_of_mount_fail api env w argv hm, Run.eq_after_nil]
  | true =>
    cases hi : (api.Init api.create).1 with
    | false =>
      refine ⟨.parseCommandLineFlags :: (@MountProc κ env w).2.1
        ++ [.initdInit], hmono _ (stage_before_load env w),
        Or.inl ⟨worldAfterMount env w, ?_⟩⟩
      rw [main_of_init_fail api env w argv hm hi, Run.eq_after_nil]
    | true =>
      have hpass : PassesInit api env w := ⟨hm, hi⟩
      by_cases hreach : ReachesStart api env w
      · obtain ⟨t, service, heq, hst⟩ :=
          main_of_reachesStart api env w argv hreach
        refine ⟨_, ?_, Or.inr (Or.inr ⟨hreach, _, some service, heq⟩)⟩
        intro e he
        rw [List.mem_append] at he
        rcases he with he | he
        · exact Nat.le_trans (hst e he) (by decide)
        · simp at he
          rcases he with he | he <;> subst he <;> simp [Event.stage]
      · rw [main_of_passesInit api env w argv hpass]
        have hpre := stage_before_load (κ := κ) env w
        cases hex : (worldAfterMount env w).IsExists env.gce_initd_dump_file
          with
        | false =>
          have hreg : env.registerOk = false := by
            cases hr : env.registerOk with
            | false => rfl
            | true =>
              have hlp : LoadPasses api env w := by
                intro h
                rw [hex] at h
                cases h
              exact absurd ⟨hpass, hlp, hr⟩ hreach
          refine ⟨(.parseCommandLineFlags :: (@MountProc κ env w).2.1
              ++ [.initdInit]) ++ [.isExists env.gce_initd_dump_file,
              .remove env.gce_initd_dump_file, .registerService], ?_,
            Or.inl ⟨(worldAfterMount env w).Remove env.gce_initd_dump_file,
              ?_⟩⟩
          · intro e he
            rw [List.mem_append] at he
            rcases he with he | he
            · exact hmono _ hpre e he
            · simp at he
              rcases he with he | he | he <;> subst he <;> simp [Event.stage]
          · rw [mainLoad_of_absent _ _ _ _ _ _ hex,
              mainAfterLoad_of_register_fail _ _ _ _ _ _ hreg]
            simp [Run.after]
        | true =>
          obtain ⟨t0, _, hres⟩ := LoadInitdCheckpoint_trace api env
            (worldAfterMount env w) (some (api.Init api.create).2)
          have hst := LoadInitdCheckpoint_stage api env
            (worldAfterMount env w) (some (api.Init api.create).2)
          rcases hres with ⟨ok, s1, hl⟩ | hl
          · cases ok with
            | false =>
              refine ⟨(.parseCommandLineFlags :: (@MountProc κ env w).2.1
                  ++ [.initdInit]) ++ (.isExists env.gce_initd_dump_file
                  :: t0), ?_, Or.inl ⟨worldAfterMount env w, ?_⟩⟩
              · intro e he
                rw [List.mem_append, List.mem_cons] at he
                rcases he with he | he | he
                · exact hmono _ hpre e he
                · subst he; simp [Event.stage]
                · rw [hst.1 _ _ _ hl e he]; decide
              · rw [mainLoad_of_load_fail _ _ _ _ _ _ _ _ hex hl]
                simp [Run.after]
            | true =>
              have hreg : env.registerOk = false := by
                cases hr : env.registerOk with
                | false => rfl
                | true =>
                  exact absurd ⟨hpass, fun _ => ⟨s1, t0, hl⟩, hr⟩ hreach
              refine ⟨(.parseCommandLineFlags :: (@MountProc κ env w).2.1
                  ++ [.initdInit]) ++ (.isExists env.gce_initd_dump_file
                  :: t0) ++ [.remove env.gce_initd_dump_file,
                  .registerService], ?_,
                Or.inl ⟨(worldAfterMount env w).Remove
                  env.gce_initd_dump_file, ?_⟩⟩
              · intro e he
                rw [List.mem_append, List.mem_append, List.mem_cons] at he
                rcases he with (he | he | he) | he
                · exact hmono _ hpre e he
                · subst he; simp [Event.stage]
                · rw [hst.1 _ _ _ hl e he]; decide
                · simp at he
                  rcases he with he | he <;> subst he <;> simp [Event.stage]
              · rw [mainLoad_of_loaded _ _ _ _ _ _ _ _ hex hl,
                  mainAfterLoad_of_register_fail _ _ _ _ _ _ hreg]
                simp [Run.after]
          · refine ⟨(.parseCommandLineFlags :: (@MountProc κ env w).2.1
                ++ [.initdInit]) ++ (.isExists env.gce_initd_dump_file
                :: t0), ?_, Or.inr (Or.inl ⟨worldAfterMount env w, ?_⟩)⟩
            · intro e he
              rw [List.mem_append, List.mem_cons] at he
              rcases he with he | he | he
              · exact hmono _ hpre e he
              · subst he; simp [Event.stage]
              · rw [hst.2 _ hl e he]; decide
            · rw [mainLoad_of_load_undefined _ _ _ _ _ _ _ hex hl]
              simp [Run.after]

/-- The serving phase of every run: the events belong to the stages from 7
on, and the value returned, if any, is `EXIT_SUCCESS` or `EXIT_FAILURE`. -/
theorem mainServe_stage_outcome {σ κ : Type} (api : InitdApi σ κ) (env : Env)
    (w : World) (service : Option σ) (rav : List CharPtr) (argc : Nat) :
    (∀ e ∈ (mainServe api env w service rav argc).trace, 7 ≤ e.stage) ∧
    (∀ code, (mainServe api env w service rav argc).outcome = .exit code →
      code = EXIT_SUCCESS ∨ code = EXIT_FAILURE) := by
  obtain ⟨n, h⟩ := mainServe_any api env w service rav argc
  rcases h with ⟨_, heq⟩ | ⟨f, _, heq⟩
  · rw [heq]
    refine ⟨?_, ?_⟩
    · intro e he
      simp only [Run.after_trace, List.append_nil] at he
      exact (stage_serving n e he).1
    · intro code h; simp at h
  · rw [heq]
    have hr := mainRestart_any api env w service rav argc f
    refine ⟨?_, ?_⟩
    · intro e he
      simp only [Run.after_trace] at he
      rcases List.mem_append.mp he with he | he
      · exact (stage_serving n e he).1
      · exact Nat.le_trans (by decide) (hr.1 e he)
    · intro code h
      exact hr.2 code (by simpa using h)

/-- The serving phase makes no start attempt. -/
theorem mainServe_attempts {σ κ : Type} (api : InitdApi σ κ) (env : Env)
    (w : World) (service : Option σ) (rav : List CharPtr) (argc : Nat) :
    startAttempts (mainServe api env w service rav argc).trace = 0 := by
  apply startAttempts_eq_zero
  intro e he h6
  have := (mainServe_stage_outcome api env w service rav argc).1 e he
  omega

/-- Every run makes at most `MAX_START_TIMES` start attempts. -/
theorem main_attempts_le {σ κ : Type} (api : InitdApi σ κ) (env : Env)
    (w : World) (argv : List Bytes) :
    startAttempts (main api env w argv).trace ≤ MAX_START_TIMES := by
  obtain ⟨t, hst, h⟩ := main_any api env w argv
  have ht : startAttempts t = 0 := by
    apply startAttempts_eq_zero
    intro e he h6
    have := hst e he
    omega
  rcases h with ⟨w1, heq⟩ | ⟨w1, heq⟩ | ⟨_, w1, service, heq⟩
  · rw [heq]
    simp only [Run.after_trace, List.append_nil, ht]
    exact Nat.zero_le _
  · rw [heq]
    simp only [Run.after_trace, List.append_nil, ht]
    exact Nat.zero_le _
  · rw [heq]
    obtain ⟨u, _, hle, hu⟩ := mainStart_any api env w1 service
      (keepArgv env.junk argv argv.length) argv.length
    rcases hu with ⟨_, hu⟩ | hu
    · rw [hu]
      simp only [Run.after_trace, startAttempts_append, ht, List.append_nil]
      simpa using hle
    · rw [hu]
      simp only [Run.after_trace, startAttempts_append, ht,
        mainServe_attempts]
      simpa using hle

/-- The values `main` can return: `EXIT_SUCCESS`, `EXIT_FAILURE`, and
`RPC_START_FAIL`, the last only when the run reached the start attempts and
all of them failed. -/
theorem main_exit_codes {σ κ : Type} (api : InitdApi σ κ) (env : Env)
    (w : World) (argv : List Bytes) (code : Int)
    (h : (main api env w argv).outcome = .exit code) :
    code = EXIT_SUCCESS ∨ code = EXIT_FAILURE ∨
      (code = RPC_START_FAIL ∧ ReachesStart api env w ∧
        ∀ i, i < MAX_START_TIMES → env.startOk i = false) := by
  obtain ⟨t, _, hm⟩ := main_any api env w argv
  rcases hm with ⟨w1, heq⟩ | ⟨w1, heq⟩ | ⟨hreach, w1, service, heq⟩
  · rw [heq] at h; simp at h; exact Or.inr (Or.inl h.symm)
  · rw [heq] at h; simp at h
  · rw [heq] at h
    obtain ⟨u, _, _, hu⟩ := mainStart_any api env w1 service
      (keepArgv env.junk argv argv.length) argv.length
    rcases hu with ⟨hall, hu⟩ | hu
    · rw [hu] at h; simp at h
      exact Or.inr (Or.inr ⟨h.symm, hreach, hall⟩)
    · rw [hu] at h
      rcases (mainServe_stage_outcome api env w1 service _ _).2 code
        (by simpa using h) with hc | hc
      · exact Or.inl hc
      · exact Or.inr (Or.inl hc)

/-! ## The claims about the namespace bootstrap -/

/-- C9: outside process 1 the namespace bootstrap is a no-op: for every
process id other than 1, `MountProc` returns true, its only call is
`getpid` (no `GetCwd`, no `Mkdir`, no `mount`), and files, directories and
mounts are as before. -/
theorem MountProc_noop_outside_pid1 {κ : Type} (env : Env) (w : World)
    (h : env.pid ≠ 1) :
    @MountProc κ env w = (true, [.getpid], w) ∧
    Event.getCwd ∉ (@MountProc κ env w).2.1 ∧
    (∀ p, Event.mkdir p ∉ (@MountProc κ env w).2.1) ∧
    (∀ a b c, Event.mount a b c ∉ (@MountProc κ env w).2.1) ∧
    worldAfterMount env w = w := by
  have heq : @MountProc κ env w = (true, [.getpid], w) := by
    simp [MountProc, h]
  refine ⟨heq, ?_, ?_, ?_, ?_⟩
  · rw [heq]; simp
  · intro p; rw [heq]; simp
  · intro a b c; rw [heq]; simp
  · simp [worldAfterMount, MountProc, h]

/-- C9 at a concrete input: process 4242 in a world without files. -/
theorem MountProc_noop_outside_pid1_witness :
    demoEnv.pid ≠ 1 ∧
    @MountProc Unit demoEnv emptyWorld = (true, [.getpid], emptyWorld) :=
  ⟨by decide, (MountProc_noop_outside_pid1 demoEnv emptyWorld (by decide)).1⟩

/-- C8: as process 1 with `GetCwd` and `Mkdir` succeeding, `MountProc` returns
true exactly when `mount()` returned 0 or failed with `errno == EBUSY`; for
every other `errno` it returns false and `main` returns `EXIT_FAILURE` with
the `mount` call as its last event: no `Init`, no checkpoint load, no start
of the RPC server. -/
theorem MountProc_tolerates_only_EBUSY {σ κ : Type} (api : InitdApi σ κ)
    (env : Env) (w : World) (argv : List Bytes) (cwd : String)
    (hpid : env.pid = 1) (hcwd : env.cwd = some cwd)
    (hmk : env.mkdirOk = true) :
    ((@MountProc κ env w).1 = true ↔
      (env.mountRet = 0 ∨ (env.mountRet ≠ 0 ∧ env.mountErrno = EBUSY))) ∧
    ((env.mountRet ≠ 0 ∧ env.mountErrno ≠ EBUSY) →
      (@MountProc κ env w).1 = false ∧
      (main api env w argv).outcome = .exit EXIT_FAILURE ∧
      (main api env w argv).trace
        = [.parseCommandLineFlags, .getpid, .getCwd,
            .mkdir (cwd ++ "/proc/"),
            .mount "proc" (cwd ++ "/proc/") "proc"]) := by
  constructor
  · by_cases h0 : env.mountRet = 0
    · simp [MountProc, hpid, hcwd, hmk, h0]
    · by_cases hb : env.mountErrno = EBUSY
      · simp [MountProc, hpid, hcwd, hmk, h0, hb]
      · simp [MountProc, hpid, hcwd, hmk, h0, hb]
  · rintro ⟨h0, hb⟩
    have hfst : (@MountProc κ env w).1 = false := by
      simp [MountProc, hpid, hcwd, hmk, h0, hb]
    have hm : mountOk env w = false := by
      rw [← MountProc_fst (κ := κ)]; exact hfst
    refine ⟨hfst, ?_, ?_⟩
    · rw [main_of_mount_fail api env w argv hm]
    · rw [main_of_mount_fail api env w argv hm]
      simp [MountProc, hpid, hcwd, hmk, h0, hb]

/-- C8 at a concrete input: process 1 whose `mount()` fails with `EACCES`. -/
theorem MountProc_tolerates_only_EBUSY_witness :
    (pid1Env.pid = 1 ∧ pid1Env.cwd = some "/home/galaxy" ∧
      pid1Env.mkdirOk = true) ∧
    (pid1Env.mountRet ≠ 0 ∧ pid1Env.mountErrno ≠ EBUSY) ∧
    (@MountProc (List Nat) pid1Env emptyWorld).1 = false ∧
    (main demoApi pid1Env emptyWorld demoArgv).outcome = .exit EXIT_FAILURE :=
  ⟨⟨rfl, rfl, rfl⟩, by decide,
    ((MountProc_tolerates_only_EBUSY demoApi pid1Env emptyWorld demoArgv
      "/home/galaxy" rfl rfl rfl).2 (by decide)).1,
    ((MountProc_tolerates_only_EBUSY demoApi pid1Env emptyWorld demoArgv
      "/home/galaxy" rfl rfl rfl).2 (by decide)).2.1⟩

/-! ## The claims about the start of the RPC server -/

/-- Every failed attempt belongs to stage 6. -/
theorem failedAttempts_stage {κ : Type} (host : String) (n : Nat) :
    ∀ e ∈ @failedAttempts κ host n, e.stage = 6 := by
  induction n with
  | zero => intro e he; simp [failedAttempts] at he
  | succ n ih =>
    intro e he
    simp only [failedAttempts, List.mem_cons] at he
    rcases he with he | he | he
    · subst he; rfl
    · subst he; rfl
    · exact ih e he

/-- C6: when the first `k` calls of `rpc_server.Start` fail and call `k + 1`
succeeds, with `k ≤ MAX_START_TIMES - 1`, a run that gets to the start
attempts makes exactly `k + 1` of them, does not return `RPC_START_FAIL`, and
goes on with line 191: the three handlers are installed and the polling
starts.  And no run at all makes more than `MAX_START_TIMES` attempts. -/
theorem rpc_start_retry_within_bound {σ κ : Type} (api : InitdApi σ κ)
    (env : Env) (w : World) (argv : List Bytes) (k : Nat)
    (hk : k ≤ MAX_START_TIMES - 1) (hreach : ReachesStart api env w)
    (hfail : ∀ i, i < k → env.startOk i = false)
    (hok : env.startOk k = true) :
    startAttempts (main api env w argv).trace = k + 1 ∧
    (main api env w argv).outcome ≠ .exit RPC_START_FAIL ∧
    (∃ (t : List (Event κ)) (w1 : World) (service : Option σ),
      main api env w argv
        = Run.after t (mainServe api env w1 service
            (keepArgv env.junk argv argv.length) argv.length) ∧
      startAttempts t = k + 1 ∧ (∀ e ∈ t, e.stage ≤ 6) ∧
      ∃ (n : Nat) (rest : List (Event κ)),
        (main api env w argv).trace
          = t ++ handlerEvents ++ List.replicate n (.sleep 5) ++ rest ∧
        ∀ e ∈ rest, 9 ≤ e.stage) ∧
    (∀ (env1 : Env) (w1 : World) (argv1 : List Bytes),
      startAttempts (main api env1 w1 argv1).trace ≤ MAX_START_TIMES) := by
  have hk1 : k < MAX_START_TIMES := by
    have : 0 < MAX_START_TIMES := by decide
    omega
  obtain ⟨t, service, heq, hst⟩ := main_of_reachesStart api env w argv hreach
  rw [mainStart_of_first_success api env _ (some service) _ _ k hk1 hfail hok,
    Run.after_after] at heq
  have ht0 : startAttempts t = 0 :=
    startAttempts_eq_zero t (fun e he h6 => by have := hst e he; omega)
  have hpre : startAttempts (t ++ [.remove env.gce_initd_dump_file,
      .registerService] ++ (failedAttempts ("0.0.0.0:" ++ env.gce_initd_port) k
      ++ [.rpcStart ("0.0.0.0:" ++ env.gce_initd_port)])) = k + 1 := by
    rw [startAttempts_append, startAttempts_append, startAttempts_append,
      startAttempts_failedAttempts, ht0]
    simp [startAttempts, Event.isRpcStart]
  have hstage : ∀ e ∈ (t ++ [.remove env.gce_initd_dump_file,
      .registerService] ++ (failedAttempts ("0.0.0.0:" ++ env.gce_initd_port) k
      ++ [.rpcStart ("0.0.0.0:" ++ env.gce_initd_port)])), e.stage ≤ 6 := by
    intro e he
    simp only [List.mem_append, List.mem_cons, List.mem_singleton,
      List.not_mem_nil, or_false] at he
    rcases he with (he | he | he) | he | he
    · exact Nat.le_trans (hst e he) (by decide)
    · subst he; simp [Event.stage]
    · subst he; simp [Event.stage]
    · rw [failedAttempts_stage _ _ e he]
    · subst he; simp [Event.stage]
  have hserve := mainServe_stage_outcome api env
    ((worldAfterMount env w).Remove env.gce_initd_dump_file) (some service)
    (keepArgv env.junk argv argv.length) argv.length
  refine ⟨?_, ?_, ⟨_, _, some service, heq, hpre, hstage, ?_⟩, ?_⟩
  · rw [heq, Run.after_trace, startAttempts_append, hpre, mainServe_attempts]
  · intro h
    rw [heq, Run.after_outcome] at h
    rcases hserve.2 _ h with hc | hc <;> revert hc <;> decide
  · obtain ⟨n, hn⟩ := mainServe_any api env
      ((worldAfterMount env w).Remove env.gce_initd_dump_file) (some service)
      (keepArgv env.junk argv argv.length) argv.length
    rcases hn with ⟨_, hn⟩ | ⟨f, _, hn⟩
    · refine ⟨n, [], ?_, by simp⟩
      rw [heq, hn]; simp
    · refine ⟨n, _, ?_, (mainRestart_any api env
        ((worldAfterMount env w).Remove env.gce_initd_dump_file)
        (some service) (keepArgv env.junk argv argv.length) argv.length f).1⟩
      rw [heq, hn]; simp
  · intro env1 w1 argv1
    exact main_attempts_le api env1 w1 argv1

/-- C6 at a concrete input: the first 14 calls of `Start` fail, each followed
by its `sleep(1000)`, and the 15th succeeds; `main` makes 15 attempts, installs
the handlers and ends in the restart of `demoEnv`. -/
theorem rpc_start_retry_within_bound_witness :
    (14 ≤ MAX_START_TIMES - 1 ∧ ReachesStart demoApi retryEnv emptyWorld ∧
      (∀ i, i < 14 → retryEnv.startOk i = false) ∧
      retryEnv.startOk 14 = true) ∧
    startAttempts (main demoApi retryEnv emptyWorld demoArgv).trace = 14 + 1 ∧
    (main demoApi retryEnv emptyWorld demoArgv).outcome
      ≠ .exit RPC_START_FAIL ∧
    (∃ (t : List (Event (List Nat))) (w1 : World) (service : Option (List Nat)),
      main demoApi retryEnv emptyWorld demoArgv
        = Run.after t (mainServe demoApi retryEnv w1 service
            (keepArgv retryEnv.junk demoArgv demoArgv.length)
            demoArgv.length) ∧
      startAttempts t = 14 + 1 ∧ (∀ e ∈ t, e.stage ≤ 6) ∧
      ∃ (n : Nat) (rest : List (Event (List Nat))),
        (main demoApi retryEnv emptyWorld demoArgv).trace
          = t ++ handlerEvents ++ List.replicate n (.sleep 5) ++ rest ∧
        ∀ e ∈ rest, 9 ≤ e.stage) ∧
    (main demoApi retryEnv emptyWorld demoArgv).trace.take 38
      = [.parseCommandLineFlags, .getpid, .initdInit,
          .isExists "initd.dump", .remove "initd.dump", .registerService]
        ++ (failedAttempts "0.0.0.0:8765" 14
          ++ (.rpcStart "0.0.0.0:8765" :: handlerEvents)) := by
  have hreach : ReachesStart demoApi retryEnv emptyWorld :=
    ⟨⟨by decide, rfl⟩, fun h => absurd h (by decide), rfl⟩
  have hfail : ∀ i, i < 14 → retryEnv.startOk i = false := by
    intro i hi
    show decide (14 ≤ i) = false
    exact decide_eq_false (by omega)
  have h := rpc_start_retry_within_bound demoApi retryEnv emptyWorld demoArgv
    14 (by decide) hreach hfail rfl
  exact ⟨⟨by decide, hreach, hfail, rfl⟩, h.1, h.2.1, h.2.2.1, by decide⟩

/-- C7: when `rpc_server.Start` fails `MAX_START_TIMES` (15) times in a row,
a run that gets to the start attempts returns `RPC_START_FAIL` after exactly
15 attempts and installs no handler.  That status is -3, seen as 253 by the
parent; it is not zero; every other value `main` returns is `EXIT_SUCCESS` or
`EXIT_FAILURE`, which differ from it as integers and in their low eight
bits; and `main` returns it only when all 15 attempts failed. -/
theorem rpc_start_exhaustion_status {σ κ : Type} (api : InitdApi σ κ)
    (env : Env) (w : World) (argv : List Bytes)
    (hreach : ReachesStart api env w)
    (hfail : ∀ i, i < MAX_START_TIMES → env.startOk i = false) :
    (main api env w argv).outcome = .exit RPC_START_FAIL ∧
    startAttempts (main api env w argv).trace = 15 ∧
    (∀ sig h, Event.signal sig h ∉ (main api env w argv).trace) ∧
    RPC_START_FAIL = -3 ∧ exitStatus8 RPC_START_FAIL = 253 ∧
    RPC_START_FAIL ≠ 0 ∧ exitStatus8 RPC_START_FAIL ≠ 0 ∧
    (∀ (env1 : Env) (w1 : World) (argv1 : List Bytes) (code : Int),
      (main api env1 w1 argv1).outcome = .exit code →
      code ≠ RPC_START_FAIL →
        (code = EXIT_SUCCESS ∨ code = EXIT_FAILURE) ∧
        exitStatus8 code ≠ exitStatus8 RPC_START_FAIL) ∧
    (∀ (env1 : Env) (w1 : World) (argv1 : List Bytes),
      (main api env1 w1 argv1).outcome = .exit RPC_START_FAIL →
        ReachesStart api env1 w1 ∧
        ∀ i, i < MAX_START_TIMES → env1.startOk i = false) := by
  obtain ⟨t, service, heq, hst⟩ := main_of_reachesStart api env w argv hreach
  rw [mainStart_of_all_fail api env _ (some service) _ _ hfail] at heq
  have ht0 : startAttempts t = 0 :=
    startAttempts_eq_zero t (fun e he h6 => by have := hst e he; omega)
  refine ⟨?_, ?_, ?_, rfl, by decide, by decide, by decide, ?_, ?_⟩
  · rw [heq]; rfl
  · rw [heq]
    simp only [Run.after_trace, startAttempts_append, ht0,
      startAttempts_failedAttempts]
    simp [startAttempts, Event.isRpcStart, MAX_START_TIMES]
  · intro sig h hmem
    rw [heq] at hmem
    simp only [Run.after_trace, List.mem_append, List.mem_cons,
      List.mem_singleton, List.not_mem_nil, or_false] at hmem
    rcases hmem with (hmem | hmem | hmem) | hmem
    · have := hst _ hmem; simp [Event.stage] at this
    · cases hmem
    · cases hmem
    · have := failedAttempts_stage _ _ _ hmem; simp [Event.stage] at this
  · intro env1 w1 argv1 code hc hne
    rcases main_exit_codes api env1 w1 argv1 code hc with h | h | ⟨h, _⟩
    · subst h; exact ⟨Or.inl rfl, by decide⟩
    · subst h; exact ⟨Or.inr rfl, by decide⟩
    · exact absurd h hne
  · intro env1 w1 argv1 hc
    rcases main_exit_codes api env1 w1 argv1 _ hc with h | h | ⟨_, h⟩
    · exact absurd h (by decide)
    · exact absurd h (by decide)
    · exact h

/-- C7 at a concrete input: every call of `Start` fails. -/
theorem rpc_start_exhaustion_status_witness :
    (∀ i, i < MAX_START_TIMES → bindFailEnv.startOk i = false) ∧
    (main demoApi bindFailEnv emptyWorld demoArgv).outcome
      = .exit RPC_START_FAIL ∧
    startAttempts (main demoApi bindFailEnv emptyWorld demoArgv).trace = 15 :=
  ⟨fun _ _ => rfl,
    (rpc_start_exhaustion_status demoApi bindFailEnv emptyWorld demoArgv
      ⟨⟨by decide, rfl⟩, fun h => absurd h (by decide), rfl⟩
      (fun _ _ => rfl)).1,
    (rpc_start_exhaustion_status demoApi bindFailEnv emptyWorld demoArgv
      ⟨⟨by decide, rfl⟩, fun h => absurd h (by decide), rfl⟩
      (fun _ _ => rfl)).2.1⟩

/-! ## The claims about stop and restart -/

/-- Among attempts of which one succeeds, one is the first to succeed. -/
theorem exists_first_success (p : Nat → Bool) (n : Nat)
    (h : ∃ k, k < n ∧ p k = true) :
    ∃ k, k < n ∧ p k = true ∧ ∀ i, i < k → p i = false := by
  classical
  have hex : ∃ k, p k = true := by
    obtain ⟨k, _, hk⟩ := h
    exact ⟨k, hk⟩
  refine ⟨Nat.find hex, ?_, Nat.find_spec hex, ?_⟩
  · obtain ⟨k, hkn, hk⟩ := h
    exact Nat.lt_of_le_of_lt (Nat.find_min' hex hk) hkn
  · intro i hi
    have := Nat.find_min hex hi
    simpa using this

/-- The flags at the exit of the polling loop come with a number of sleeps. -/
theorem pollLoop_of_flagsAtLoopExit (env : Env) (f : SigFlags)
    (h : flagsAtLoopExit env = some f) :
    ∃ n, pollLoop ⟨false, false⟩ env.sleepSignals = some (f, n) := by
  unfold flagsAtLoopExit at h
  cases hp : pollLoop ⟨false, false⟩ env.sleepSignals with
  | none => rw [hp] at h; cases h
  | some r =>
    rw [hp] at h
    obtain ⟨f1, n⟩ := r
    simp at h
    exact ⟨n, by rw [h]⟩

/-- A run that gets to line 199: every event before belongs to a stage up to
8, the world is that after the removal of the dump file. -/
theorem main_of_serving {σ κ : Type} (api : InitdApi σ κ) (env : Env)
    (w : World) (argv : List Bytes) (f : SigFlags)
    (hreach : ReachesServing api env w)
    (hexit : flagsAtLoopExit env = some f) :
    ∃ (t : List (Event κ)) (s : σ),
      main api env w argv
        = Run.after t (mainRestart api env
            ((worldAfterMount env w).Remove env.gce_initd_dump_file)
            (some s) (keepArgv env.junk argv argv.length) argv.length
            (deliverAll f env.lateSignals)) ∧
      ∀ e ∈ t, e.stage ≤ 8 := by
  obtain ⟨hstart, hk⟩ := hreach
  obtain ⟨k, hk, hok, hfail⟩ := exists_first_success env.startOk _ hk
  obtain ⟨n, hn⟩ := pollLoop_of_flagsAtLoopExit env f hexit
  obtain ⟨t, s, heq, hst⟩ := main_of_reachesStart api env w argv hstart
  rw [mainStart_of_first_success api env _ (some s) _ _ k hk hfail hok,
    mainServe_of_exit api env _ (some s) _ _ f n hn, Run.after_after,
    Run.after_after] at heq
  refine ⟨_, s, heq, ?_⟩
  intro e he
  simp only [List.mem_append, List.mem_cons, List.mem_singleton,
    List.not_mem_nil, or_false] at he
  rcases he with ((he | he | he) | he | he) | he
  · exact Nat.le_trans (hst e he) (by decide)
  · subst he; simp [Event.stage]
  · subst he; simp [Event.stage]
  · rw [failedAttempts_stage _ _ e he]; decide
  · subst he; simp [Event.stage]
  · exact (stage_serving n e (List.mem_append.mpr he)).2

/-- A lookup finds nothing among the entries of other keys. -/
theorem lookup_filter_ne (path : String) (l : List (String × Bytes)) :
    List.lookup path (l.filter (fun e => e.1 != path)) = none := by
  induction l with
  | nil => rfl
  | cons e rest ih =>
    obtain ⟨k, v⟩ := e
    by_cases h : k = path
    · have h1 : ((k, v).1 != path) = false := by simp [h]
      rw [List.filter_cons, h1]
      exact ih
    · have h1 : ((k, v).1 != path) = true := by simpa using h
      have h2 : (path == k) = false := by
        simpa using fun h3 => h h3.symm
      rw [List.filter_cons, h1]
      simp only [if_true, List.lookup_cons, h2]
      exact ih

/-- No file is at a path after its removal. -/
theorem World.readFile_Remove (w : World) (path : String) :
    (w.Remove path).readFile path = none :=
  lookup_filter_ne path w.files

theorem deliver_SIGTERM (f : SigFlags) :
    deliver f .SIGTERM = StopSigHandler f := rfl

theorem deliver_SIGINT (f : SigFlags) :
    deliver f .SIGINT = StopSigHandler f := rfl

theorem deliver_SIGUSR1 (f : SigFlags) :
    deliver f .SIGUSR1 = RestartSigHandler f := rfl

/-- A flag that is set stays set: no handler clears one. -/
theorem deliverAll_mono (sigs : List Signal) :
    ∀ g : SigFlags,
      (g.s_is_restart = true → (deliverAll g sigs).s_is_restart = true) ∧
      (g.s_is_stop = true → (deliverAll g sigs).s_is_stop = true) := by
  induction sigs with
  | nil => intro g; exact ⟨id, id⟩
  | cons sig rest ih =>
    intro g
    have h := ih (deliver g sig)
    constructor
    · intro hg
      apply h.1
      cases sig
      · rw [deliver_SIGTERM]; exact hg
      · rw [deliver_SIGINT]; exact hg
      · rw [deliver_SIGUSR1]; rfl
    · intro hg
      apply h.2
      cases sig
      · rw [deliver_SIGTERM]; rfl
      · rw [deliver_SIGINT]; rfl
      · rw [deliver_SIGUSR1]; exact hg

/-- C4: in a run that gets to the polling loop and leaves it with the restart
flag set, the events are, in this order: events of the stages up to 8 (none
of them `Stop`, a dump event or `execvp`), then `rpc_server.Stop`, then the
events of `DumpInitdCheckpoint`, which start with the call of the supervisor,
then, only when the dump returned true, `execvp`.  When the dump returns false
`main` returns `EXIT_FAILURE` and `execvp` is not called. -/
theorem restart_order {σ κ : Type} (api : InitdApi σ κ) (env : Env)
    (w : World) (argv : List Bytes) (f : SigFlags)
    (hreach : ReachesServing api env w)
    (hexit : flagsAtLoopExit env = some f)
    (hrestart : f.s_is_restart = true) :
    ∃ (pre : List (Event κ)) (s : σ) (ok : Bool) (dump : List (Event κ))
      (w1 : World),
      DumpInitdCheckpoint api env
        ((worldAfterMount env w).Remove env.gce_initd_dump_file) (some s)
        = (ok, dump, w1) ∧
      (.rpcStop ∉ pre ∧ (∀ e ∈ dump, e ∉ pre) ∧
        ∀ file av, .execvp file av ∉ pre) ∧
      (∃ rest, dump = .dumpProcessInfoCheckPoint :: rest) ∧
      (.rpcStop ∉ dump ∧ ∀ file av, .execvp file av ∉ dump) ∧
      (ok = true →
        (main api env w argv).trace
          = pre ++ [.rpcStop] ++ dump
            ++ [.execvp ((restartArgv env.junk argv).getD 0 .uninit)
                (restartArgv env.junk argv)] ∧
        (main api env w argv).outcome
          = if env.execvpOk then .execed else .exit EXIT_FAILURE) ∧
      (ok = false →
        (main api env w argv).trace = pre ++ [.rpcStop] ++ dump ∧
        (main api env w argv).outcome = .exit EXIT_FAILURE ∧
        ∀ file av, .execvp file av ∉ (main api env w argv).trace) := by
  obtain ⟨pre, s, heq, hst⟩ := main_of_serving api env w argv f hreach hexit
  have hflag : (deliverAll f env.lateSignals).s_is_restart = true :=
    (deliverAll_mono _ f).1 hrestart
  have hdst := DumpInitdCheckpoint_stage api env
    ((worldAfterMount env w).Remove env.gce_initd_dump_file) (some s)
  have hdc := DumpInitdCheckpoint_cases api env
    ((worldAfterMount env w).Remove env.gce_initd_dump_file) (some s)
  rcases hd : DumpInitdCheckpoint api env
    ((worldAfterMount env w).Remove env.gce_initd_dump_file) (some s)
    with ⟨ok, dump, w1⟩
  rw [hd] at hdst
  have hpre9 : ∀ e ∈ pre, e.stage ≠ 9 ∧ e.stage ≠ 10 ∧ e.stage ≠ 11 := by
    intro e he
    have := hst e he
    omega
  refine ⟨pre, s, ok, dump, w1, hd, ⟨?_, ?_, ?_⟩, ?_, ⟨?_, ?_⟩, ?_, ?_⟩
  · intro h; exact (hpre9 _ h).1 rfl
  · intro e he h; exact (hpre9 _ h).2.1 (hdst e he)
  · intro file av h; exact (hpre9 _ h).2.2 rfl
  · rcases hdc with ⟨t, h, ht⟩ | ⟨s1, c, b, _, _, _, _, h⟩
    · rw [hd] at h
      cases h
      rcases ht with ht | ht | ht
      · exfalso
        subst ht
        cases hdd : api.DumpProcessInfoCheckPoint s with
        | none => simp [DumpInitdCheckpoint, hdd] at hd
        | some c =>
          cases hs : api.SerializeToString c with
          | none => simp [DumpInitdCheckpoint, hdd, hs] at hd
          | some b =>
            cases ho : env.openWriteOk <;>
              simp [DumpInitdCheckpoint, hdd, hs, ho] at hd
      · exact ⟨_, ht⟩
      · exact ⟨_, ht⟩
    · rw [hd] at h
      cases h
      exact ⟨_, rfl⟩
  · intro h; have := hdst _ h; simp [Event.stage] at this
  · intro file av h; have := hdst _ h; simp [Event.stage] at this
  · intro hok
    subst hok
    refine ⟨?_, ?_⟩
    · rw [heq]
      simp [mainRestart, hflag, hd, restartArgv]
    · rw [heq]
      simp [mainRestart, hflag, hd]
  · intro hok
    subst hok
    have htr : (main api env w argv).trace = pre ++ [.rpcStop] ++ dump := by
      rw [heq]
      simp [mainRestart, hflag, hd]
    refine ⟨htr, ?_, ?_⟩
    · rw [heq]
      simp [mainRestart, hflag, hd]
    · intro file av h
      rw [htr] at h
      simp only [List.mem_append, List.mem_singleton] at h
      rcases h with (h | h) | h
      · exact (hpre9 _ h).2.2 rfl
      · cases h
      · have := hdst _ h; simp [Event.stage] at this

/-- A run without dump file in which bootstrap, `Init` and registration pass
reaches the start attempts. -/
theorem reachesStart_of_absent {σ κ : Type} (api : InitdApi σ κ) (env : Env)
    (w : World) (hm : mountOk env w = true)
    (hi : (api.Init api.create).1 = true)
    (hex : (worldAfterMount env w).IsExists env.gce_initd_dump_file = false)
    (hreg : env.registerOk = true) : ReachesStart api env w := by
  refine ⟨⟨hm, hi⟩, ?_, hreg⟩
  intro h
  rw [hex] at h
  cases h

/-- C4 at a concrete input: a `SIGUSR1` arrives during the second sleep. -/
theorem restart_order_witness :
    ReachesServing demoApi demoEnv emptyWorld ∧
    flagsAtLoopExit demoEnv = some ⟨false, true⟩ ∧
    ∃ (pre : List (Event (List Nat))) (s : List Nat) (ok : Bool)
      (dump : List (Event (List Nat))) (w1 : World),
      DumpInitdCheckpoint demoApi demoEnv
        ((worldAfterMount demoEnv emptyWorld).Remove
          demoEnv.gce_initd_dump_file) (some s) = (ok, dump, w1) ∧
      (ok = true →
        (main demoApi demoEnv emptyWorld demoArgv).trace
          = pre ++ [.rpcStop] ++ dump
            ++ [.execvp ((restartArgv demoEnv.junk demoArgv).getD 0 .uninit)
                (restartArgv demoEnv.junk demoArgv)] ∧
        (main demoApi demoEnv emptyWorld demoArgv).outcome
          = if demoEnv.execvpOk then .execed else .exit EXIT_FAILURE) := by
  have hreach : ReachesServing demoApi demoEnv emptyWorld :=
    ⟨reachesStart_of_absent _ _ _ (by decide) rfl (by decide) rfl,
      0, by decide, rfl⟩
  refine ⟨hreach, by decide, ?_⟩
  obtain ⟨pre, s, ok, dump, w1, h1, _, _, _, h5, _⟩ :=
    restart_order demoApi demoEnv emptyWorld demoArgv ⟨false, true⟩ hreach
      (by decide) rfl
  exact ⟨pre, s, ok, dump, w1, h1, h5⟩

/-- C5 as stated fails: with `SIGTERM` and `SIGUSR1` both delivered during
one sleep, the stop flag is set when the polling loop exits, and yet the
checkpoint is dumped, the dump file written and `execvp` called; `main` does
not return `EXIT_SUCCESS`. -/
theorem stop_flag_counterexample :
    flagsAtLoopExit bothSignalsEnv = some ⟨true, true⟩ ∧
    Event.dumpProcessInfoCheckPoint
      ∈ (main demoApi bothSignalsEnv emptyWorld demoArgv).trace ∧
    Event.writeFile "initd.dump" [0]
      ∈ (main demoApi bothSignalsEnv emptyWorld demoArgv).trace ∧
    Event.execvp (.buf [105, 110, 105, 116, 100, 0])
        [.buf [105, 110, 105, 116, 100, 0], .buf [45, 45, 112, 0], .null]
      ∈ (main demoApi bothSignalsEnv emptyWorld demoArgv).trace ∧
    (main demoApi bothSignalsEnv emptyWorld demoArgv).world.readFile
      "initd.dump" = some [0] ∧
    (main demoApi bothSignalsEnv emptyWorld demoArgv).outcome
      ≠ .exit EXIT_SUCCESS := by
  refine ⟨by decide, by decide, by decide, by decide, by decide, by decide⟩

/-- C5, amended: in a run that gets to the polling loop and leaves it with the
stop flag set, and in which `s_is_restart` is false when line 199 tests it,
`main` returns `EXIT_SUCCESS`; `Stop` and `DumpInitdCheckpoint` are not called,
the dump file is neither opened nor written and is absent at the end, and
`execvp` is not called. -/
theorem stop_without_checkpoint {σ κ : Type} (api : InitdApi σ κ) (env : Env)
    (w : World) (argv : List Bytes) (f : SigFlags)
    (hreach : ReachesServing api env w)
    (hexit : flagsAtLoopExit env = some f)
    (hstop : f.s_is_stop = true)
    (hnorestart : (deliverAll f env.lateSignals).s_is_restart = false) :
    (deliverAll f env.lateSignals).s_is_stop = true ∧
    (main api env w argv).outcome = .exit EXIT_SUCCESS ∧
    Event.rpcStop ∉ (main api env w argv).trace ∧
    Event.dumpProcessInfoCheckPoint ∉ (main api env w argv).trace ∧
    (∀ p, Event.openWrite p ∉ (main api env w argv).trace) ∧
    (∀ p d, Event.writeFile p d ∉ (main api env w argv).trace) ∧
    (∀ file av, Event.execvp file av ∉ (main api env w argv).trace) ∧
    (main api env w argv).world
      = (worldAfterMount env w).Remove env.gce_initd_dump_file ∧
    (main api env w argv).world.readFile env.gce_initd_dump_file = none := by
  obtain ⟨pre, s, heq, hst⟩ := main_of_serving api env w argv f hreach hexit
  have hrun : main api env w argv
      = ⟨pre, (worldAfterMount env w).Remove env.gce_initd_dump_file,
          .exit EXIT_SUCCESS⟩ := by
    rw [heq]
    simp [mainRestart, hnorestart, Run.after]
  have hno : ∀ e ∈ (main api env w argv).trace, e.stage ≤ 8 := by
    rw [hrun]; exact hst
  refine ⟨(deliverAll_mono _ f).2 hstop, by rw [hrun], ?_, ?_, ?_, ?_, ?_,
    by rw [hrun], by rw [hrun]; exact World.readFile_Remove _ _⟩
  · intro h; have := hno _ h; simp [Event.stage] at this
  · intro h; have := hno _ h; simp [Event.stage] at this
  · intro p h; have := hno _ h; simp [Event.stage] at this
  · intro p d h; have := hno _ h; simp [Event.stage] at this
  · intro file av h; have := hno _ h; simp [Event.stage] at this

/-- C5, amended, at a concrete input: a `SIGTERM` arrives during the second
sleep and no other signal. -/
theorem stop_without_checkpoint_witness :
    ReachesServing demoApi stopEnv emptyWorld ∧
    flagsAtLoopExit stopEnv = some ⟨true, false⟩ ∧
    (main demoApi stopEnv emptyWorld demoArgv).outcome = .exit EXIT_SUCCESS ∧
    Event.dumpProcessInfoCheckPoint
      ∉ (main demoApi stopEnv emptyWorld demoArgv).trace := by
  have hreach : ReachesServing demoApi stopEnv emptyWorld :=
    ⟨reachesStart_of_absent _ _ _ (by decide) rfl (by decide) rfl,
      0, by decide, rfl⟩
  have h := stop_without_checkpoint demoApi stopEnv emptyWorld demoArgv
    ⟨true, false⟩ hreach (by decide) rfl (by decide)
  exact ⟨hreach, by decide, h.2.1, h.2.2.2.1⟩

/-! ## The claim about the argument vector of the restart -/

/-- A C string with its terminator is a string without zero byte followed by
one zero byte. -/
theorem isCString_eq (a : Bytes) (h : isCString a = true) :
    ∃ s : Bytes, a = s ++ [0] ∧ ∀ c ∈ s, c ≠ 0 := by
  unfold isCString at h
  simp only [Bool.and_eq_true, beq_iff_eq, Bool.not_eq_true'] at h
  obtain ⟨h1, h2⟩ := h
  refine ⟨a.dropLast, (List.dropLast_append_getLast? 0 (by simp [h1])).symm, ?_⟩
  intro c hc h0
  subst h0
  have : a.dropLast.contains 0 = true := by simpa using hc
  rw [h2] at this
  cases this

/-- The string held by a buffer ends before the first zero byte. -/
theorem cstr_terminated (s : Bytes) (h : ∀ c ∈ s, c ≠ 0) (rest : Bytes) :
    cstr (s ++ 0 :: rest) = s := by
  unfold cstr
  induction s with
  | nil => simp [List.takeWhile]
  | cons c s ih =>
    have hc : c ≠ 0 := h c (List.mem_cons_self _ _)
    have hs : ∀ c ∈ s, c ≠ 0 := fun x hx => h x (List.mem_cons_of_mem _ hx)
    have hb : (c != 0) = true := by simpa using hc
    rw [List.cons_append, List.takeWhile_cons, hb]
    simp only [if_true]
    rw [ih hs]

/-- The copy of lines 139-141 of a C string is the string, terminator
included. -/
theorem keepArg_of_isCString (junk : Nat) (a : Bytes) (h : isCString a = true) :
    keepArg junk a = a := by
  obtain ⟨s, rfl, hs⟩ := isCString_eq a h
  have hc : cstr (s ++ [0]) = s := cstr_terminated s hs []
  have hl : strlen (s ++ [0]) = s.length := by
    unfold strlen; exact congrArg List.length hc
  unfold keepArg
  simp only [hl, strncpy, hc, newCharArray]
  simp

/-- The loop of lines 138-142 after `m` rounds: the first `m` slots point to
the copies, the other slots are as before. -/
theorem keepArgv_fold (junk : Nat) (argv : List Bytes) (init : List CharPtr) :
    ∀ m, ((List.range m).foldl
      (fun restart_argv i =>
        restart_argv.set i (.buf (keepArg junk (argv.getD i [])))) init).length
        = init.length ∧
      ∀ i, ((List.range m).foldl
        (fun restart_argv i =>
          restart_argv.set i (.buf (keepArg junk (argv.getD i [])))) init)[i]?
        = if i < m ∧ i < init.length then
            some (.buf (keepArg junk (argv.getD i []))) else init[i]? := by
  intro m
  induction m with
  | zero => simp
  | succ m ih =>
    obtain ⟨hlen, hget⟩ := ih
    rw [List.range_succ, List.foldl_append]
    simp only [List.foldl_cons, List.foldl_nil, List.length_set]
    refine ⟨hlen, ?_⟩
    intro i
    rw [List.getElem?_set, hlen, hget i]
    by_cases him : m = i
    · subst him
      by_cases hl : m < init.length
      · simp [hl]
      · have hle : init.length ≤ m := Nat.le_of_not_lt hl
        simp [hl, hle]
    · simp only [him, if_false]
      by_cases h1 : i < m
      · have : i < m + 1 := Nat.lt_succ_of_lt h1
        simp [h1, this]
      · have : ¬ i < m + 1 := by omega
        simp [h1, this]

/-- The array passed to `execvp`, slot by slot. -/
theorem restartArgv_getElem? (junk : Nat) (argv : List Bytes) :
    (restartArgv junk argv).length = argv.length + 1 ∧
    ∀ i, (restartArgv junk argv)[i]?
      = if i < argv.length then
          some (.buf (keepArg junk (argv.getD i [])))
        else if i = argv.length then some .null else none := by
  obtain ⟨hlen, hget⟩ := keepArgv_fold junk argv
    (List.replicate (argv.length + 1) .uninit) argv.length
  simp only [List.length_replicate] at hlen hget
  refine ⟨by
    unfold restartArgv keepArgv
    rw [List.length_set, hlen], ?_⟩
  intro i
  unfold restartArgv keepArgv
  rw [List.getElem?_set, hlen, hget i]
  by_cases h1 : i < argv.length
  · have h2 : argv.length ≠ i := by omega
    have h3 : i < argv.length + 1 := by omega
    simp [h1, h2, h3]
  · by_cases h2 : i = argv.length
    · subst h2; simp
    · have h3 : argv.length ≠ i := fun h => h2 h.symm
      have h4 : ¬ i < argv.length + 1 := by omega
      simp [h1, h2, h3, List.getElem?_replicate, h4]

/-- The only `execvp` of the last phase is that of line 206. -/
theorem mainRestart_execvp {σ κ : Type} (api : InitdApi σ κ) (env : Env)
    (w : World) (service : Option σ) (rav : List CharPtr) (argc : Nat)
    (f : SigFlags) (file : CharPtr) (av : List CharPtr)
    (h : Event.execvp file av
      ∈ (mainRestart api env w service rav argc f).trace) :
    av = rav.set argc .null ∧ file = (rav.set argc .null).getD 0 .uninit := by
  have hst := DumpInitdCheckpoint_stage api env w service
  cases hf : f.s_is_restart with
  | false => simp [mainRestart, hf] at h
  | true =>
    rcases hd : DumpInitdCheckpoint api env w service with ⟨ok, t, w1⟩
    rw [hd] at hst
    cases ok with
    | false =>
      simp only [mainRestart, hf, hd, if_true, Run.after_trace,
        List.mem_append, List.mem_singleton] at h
      rcases h with h | h
      · cases h
      · have := hst _ h; simp [Event.stage] at this
    | true =>
      simp only [mainRestart, hf, hd, if_true, Run.after_trace,
        List.mem_append, List.mem_singleton] at h
      rcases h with h | h | h
      · cases h
      · have := hst _ h; simp [Event.stage] at this
      · cases h; exact ⟨rfl, rfl⟩

/-- The only `execvp` of a run is that of line 206, on the array kept at the
start. -/
theorem main_execvp {σ κ : Type} (api : InitdApi σ κ) (env : Env)
    (w : World) (argv : List Bytes) (file : CharPtr) (av : List CharPtr)
    (h : Event.execvp file av ∈ (main api env w argv).trace) :
    av = restartArgv env.junk argv ∧
    file = (restartArgv env.junk argv).getD 0 .uninit := by
  obtain ⟨t, hst, hm⟩ := main_any api env w argv
  have ht : Event.execvp file av ∉ t := by
    intro hmem; have := hst _ hmem; simp [Event.stage] at this
  rcases hm with ⟨w1, heq⟩ | ⟨w1, heq⟩ | ⟨_, w1, service, heq⟩
  · rw [heq] at h; simp [ht] at h
  · rw [heq] at h; simp [ht] at h
  · rw [heq] at h
    obtain ⟨u, hu6, _, hu⟩ := mainStart_any api env w1 service
      (keepArgv env.junk argv argv.length) argv.length
    have hu' : Event.execvp file av ∉ u := by
      intro hmem; have := hu6 _ hmem; simp [Event.stage] at this
    rcases hu with ⟨_, hu⟩ | hu
    · rw [hu] at h; simp [ht, hu'] at h
    · rw [hu] at h
      obtain ⟨n, hn⟩ := mainServe_any api env w1 service
        (keepArgv env.junk argv argv.length) argv.length
      have hs' : Event.execvp file av
          ∉ (handlerEvents ++ List.replicate n (.sleep 5) : List (Event κ)) := by
        intro hmem
        have := (stage_serving n _ hmem).2
        simp [Event.stage] at this
      rcases hn with ⟨_, hn⟩ | ⟨f, _, hn⟩
      · rw [hn] at h
        simp only [Run.after_trace, List.mem_append, List.not_mem_nil,
          or_false] at h
        rcases h with h | h | h
        · exact absurd h ht
        · exact absurd h hu'
        · exact absurd (List.mem_append.mpr h) hs'
      · rw [hn] at h
        simp only [Run.after_trace, List.mem_append] at h
        rcases h with h | h | h
        · exact absurd h ht
        · exact absurd h hu'
        · rcases h with h | h
          · exact absurd (List.mem_append.mpr h) hs'
          · exact mainRestart_execvp api env w1 service _ _ f file av h

/-- C10: whenever a run of `main`, started with an argument vector of `argc`
at least 1 whose entries are C strings, calls `execvp`, the array passed has
`argc + 1` slots, slot `i` below `argc` points to a buffer equal to the
original `argv[i]` byte for byte, slot `argc` is `NULL`, and the executable
named is the original `argv[0]`; this holds whatever `ParseCommandLineFlags`
does to `argv`. -/
theorem restart_uses_original_argv {σ κ : Type} (api : InitdApi σ κ)
    (env : Env) (w : World) (argv : List Bytes) (file : CharPtr)
    (av : List CharPtr) (hargc : 1 ≤ argv.length)
    (hwf : ∀ a ∈ argv, isCString a = true)
    (hexec : Event.execvp file av ∈ (main api env w argv).trace) :
    av.length = argv.length + 1 ∧
    (∀ i, i < argv.length → av[i]? = (argv[i]?).map CharPtr.buf) ∧
    av[argv.length]? = some .null ∧
    some file = (argv[0]?).map CharPtr.buf := by
  obtain ⟨hav, hfile⟩ := main_execvp api env w argv file av hexec
  obtain ⟨hlen, hget⟩ := restartArgv_getElem? env.junk argv
  have hslot : ∀ i, i < argv.length →
      (restartArgv env.junk argv)[i]? = (argv[i]?).map CharPtr.buf := by
    intro i hi
    rw [hget i, if_pos hi]
    have hmem : argv[i] ∈ argv := List.getElem_mem hi
    have hd : argv.getD i [] = argv[i] := by
      simp [List.getD_eq_getElem?_getD, List.getElem?_eq_getElem hi]
    rw [hd, keepArg_of_isCString _ _ (hwf _ hmem),
      List.getElem?_eq_getElem hi]
    rfl
  subst hav
  refine ⟨hlen, hslot, ?_, ?_⟩
  · rw [hget argv.length]; simp
  · rw [hfile, List.getD_eq_getElem?_getD, hslot 0 hargc,
      List.getElem?_eq_getElem hargc]
    rfl

/-- C10 at a concrete input: the restart of a daemon started with two arguments. -/
theorem restart_uses_original_argv_witness :
    (1 ≤ demoArgv.length ∧ ∀ a ∈ demoArgv, isCString a = true) ∧
    Event.execvp (.buf [105, 110, 105, 116, 100, 0])
        [.buf [105, 110, 105, 116, 100, 0], .buf [45, 45, 112, 0], .null]
      ∈ (main demoApi demoEnv emptyWorld demoArgv).trace ∧
    ([.buf [105, 110, 105, 116, 100, 0], .buf [45, 45, 112, 0], .null] :
      List CharPtr)[demoArgv.length]? = some .null :=
  ⟨⟨by decide, by decide⟩, by decide,
    (restart_uses_original_argv demoApi demoEnv emptyWorld demoArgv
      (.buf [105, 110, 105, 116, 100, 0])
      [.buf [105, 110, 105, 116, 100, 0], .buf [45, 45, 112, 0], .null]
      (by decide) (by decide) (by decide)).2.2.1⟩

/-! ## The claims about the checkpoint -/

/-- Every event of the start phase and of what follows belongs to a stage from
6 on. -/
theorem mainStart_stage {σ κ : Type} (api : InitdApi σ κ) (env : Env)
    (w : World) (service : Option σ) (rav : List CharPtr) (argc : Nat) :
    ∀ e ∈ (mainStart api env w service rav argc).trace, 6 ≤ e.stage := by
  obtain ⟨t, ht, _, h⟩ := mainStart_any api env w service rav argc
  intro e he
  rcases h with ⟨_, h⟩ | h
  · rw [h] at he
    simp only [Run.after_trace, List.append_nil] at he
    rw [ht e he]
  · rw [h] at he
    simp only [Run.after_trace, List.mem_append] at he
    rcases he with he | he
    · rw [ht e he]
    · exact Nat.le_trans (by decide)
        ((mainServe_stage_outcome api env w service rav argc).1 e he)

/-- Lines 165-211 start with the removal of the dump file; every later event
belongs to a stage from 5 on. -/
theorem mainAfterLoad_trace {σ κ : Type} (api : InitdApi σ κ) (env : Env)
    (w : World) (service : Option σ) (rav : List CharPtr) (argc : Nat) :
    ∃ post : List (Event κ),
      (mainAfterLoad api env w service rav argc).trace
        = .remove env.gce_initd_dump_file :: post ∧
      ∀ e ∈ post, 5 ≤ e.stage := by
  cases hreg : env.registerOk with
  | false =>
    refine ⟨[.registerService], ?_, ?_⟩
    · rw [mainAfterLoad_of_register_fail _ _ _ _ _ _ hreg]
    · intro e he; simp at he; subst he; simp [Event.stage]
  | true =>
    refine ⟨.registerService
      :: (mainStart api env (w.Remove env.gce_initd_dump_file) service rav
            argc).trace, ?_, ?_⟩
    · rw [mainAfterLoad_of_registered _ _ _ _ _ _ hreg]; rfl
    · intro e he
      rw [List.mem_cons] at he
      rcases he with he | he
      · subst he; simp [Event.stage]
      · exact Nat.le_trans (by decide) (mainStart_stage _ _ _ _ _ _ e he)

/-- C1 as stated fails: with a dump file that is there and does not parse,
`LoadInitdCheckpoint` returns false and `main` returns `EXIT_FAILURE` right
after the load; the service is not registered and no start of the RPC server
is attempted. -/
theorem corrupt_checkpoint_counterexample :
    corruptWorld.IsExists demoEnv.gce_initd_dump_file = true ∧
    LoadInitdCheckpoint demoApi demoEnv corruptWorld (some [])
      = .ret false (some []) [.openRead "initd.dump"] ∧
    (main demoApi demoEnv corruptWorld demoArgv).outcome
      = .exit EXIT_FAILURE ∧
    (main demoApi demoEnv corruptWorld demoArgv).trace
      = [.parseCommandLineFlags, .getpid, .initdInit,
          .isExists "initd.dump", .openRead "initd.dump"] ∧
    Event.registerService
      ∉ (main demoApi demoEnv corruptWorld demoArgv).trace ∧
    startAttempts (main demoApi demoEnv corruptWorld demoArgv).trace = 0 := by
  refine ⟨by decide, by decide, by decide, by decide, by decide, by decide⟩

/-- C1, amended: in a run that passes the namespace bootstrap and `Init`, when
the dump file is there and `LoadInitdCheckpoint` returns false, `main` returns
`EXIT_FAILURE` (line 162) with the events of the load as its last ones: the
dump file is not removed, the service is not registered, no start of the RPC
server is attempted. -/
theorem load_failure_is_fatal {σ κ : Type} (api : InitdApi σ κ) (env : Env)
    (w : World) (argv : List Bytes) (service : Option σ)
    (t : List (Event κ)) (hpass : PassesInit api env w)
    (hex : (worldAfterMount env w).IsExists env.gce_initd_dump_file = true)
    (hload : LoadInitdCheckpoint api env (worldAfterMount env w)
      (some (api.Init api.create).2) = .ret false service t) :
    (main api env w argv).outcome = .exit EXIT_FAILURE ∧
    (main api env w argv).trace
      = .parseCommandLineFlags :: (@MountProc κ env w).2.1
          ++ [.initdInit, .isExists env.gce_initd_dump_file] ++ t ∧
    (∀ e ∈ (main api env w argv).trace, e.stage ≤ 3) ∧
    (∀ p, Event.remove p ∉ (main api env w argv).trace) ∧
    Event.registerService ∉ (main api env w argv).trace ∧
    startAttempts (main api env w argv).trace = 0 ∧
    (main api env w argv).world = worldAfterMount env w := by
  have hrun : main api env w argv
      = ⟨.parseCommandLineFlags :: (@MountProc κ env w).2.1
          ++ [.initdInit, .isExists env.gce_initd_dump_file] ++ t,
          worldAfterMount env w, .exit EXIT_FAILURE⟩ := by
    rw [main_of_passesInit api env w argv hpass,
      mainLoad_of_load_fail _ _ _ _ _ _ _ _ hex hload]
    simp [Run.after]
  have hst : ∀ e ∈ (main api env w argv).trace, e.stage ≤ 3 := by
    rw [hrun]
    intro e he
    simp only [List.cons_append, List.mem_cons, List.mem_append,
      List.not_mem_nil, or_false] at he
    rcases he with he | (he | he | he) | he
    · subst he; simp [Event.stage]
    · rw [MountProc_stage env w e he]; decide
    · subst he; simp [Event.stage]
    · subst he; simp [Event.stage]
    · rw [(LoadInitdCheckpoint_stage api env _ _).1 _ _ _ hload e he]
  refine ⟨by rw [hrun], by rw [hrun], hst, ?_, ?_, ?_, by rw [hrun]⟩
  · intro p h; have := hst _ h; simp [Event.stage] at this
  · intro h; have := hst _ h; simp [Event.stage] at this
  · exact startAttempts_eq_zero _ (fun e he h6 => by
      have := hst e he; omega)

/-- C1, amended, at a concrete input: a dump file that does not parse. -/
theorem load_failure_is_fatal_witness :
    PassesInit demoApi demoEnv corruptWorld ∧
    (worldAfterMount demoEnv corruptWorld).IsExists
      demoEnv.gce_initd_dump_file = true ∧
    (main demoApi demoEnv corruptWorld demoArgv).outcome
      = .exit EXIT_FAILURE ∧
    Event.registerService
      ∉ (main demoApi demoEnv corruptWorld demoArgv).trace :=
  ⟨⟨by decide, rfl⟩, by decide,
    (load_failure_is_fatal demoApi demoEnv corruptWorld demoArgv (some [])
      [.openRead "initd.dump"] ⟨by decide, rfl⟩ (by decide) (by decide)).1,
    (load_failure_is_fatal demoApi demoEnv corruptWorld demoArgv (some [])
      [.openRead "initd.dump"] ⟨by decide, rfl⟩ (by decide)
      (by decide)).2.2.2.2.1⟩

/-- C2 as stated fails: with a dump file that is there and cannot be opened,
the run passes the namespace bootstrap and `Init`, the load fails, and `main`
returns without a call of `file::Remove`; the dump file is still there. -/
theorem remove_counterexample :
    PassesInit demoApi unreadableEnv dumpedWorld ∧
    (main demoApi unreadableEnv dumpedWorld demoArgv).outcome
      = .exit EXIT_FAILURE ∧
    Event.remove "initd.dump"
      ∉ (main demoApi unreadableEnv dumpedWorld demoArgv).trace ∧
    (main demoApi unreadableEnv dumpedWorld demoArgv).world.readFile
      "initd.dump" = some [2, 7, 8] := by
  refine ⟨⟨by decide, rfl⟩, by decide, by decide, by decide⟩

/-- C2, amended: in a run that passes the namespace bootstrap and `Init`, when
the dump file is absent or `LoadInitdCheckpoint` returns true, `file::Remove`
on the path of the dump file is executed after events of the stages up to 3
and before everything else: the registration, the start attempts, the
serving and the return of `main`; the file is absent right after it. -/
theorem dump_file_removed_after_load {σ κ : Type}
    (api : InitdApi σ κ) (env : Env) (w : World) (argv : List Bytes)
    (hpass : PassesInit api env w) (hload : LoadPasses api env w) :
    ∃ pre post : List (Event κ),
      (main api env w argv).trace
        = pre ++ .remove env.gce_initd_dump_file :: post ∧
      (∀ e ∈ pre, e.stage ≤ 3) ∧ (∀ e ∈ post, 5 ≤ e.stage) ∧
      ((worldAfterMount env w).Remove env.gce_initd_dump_file).IsExists
        env.gce_initd_dump_file = false := by
  have hgone : ((worldAfterMount env w).Remove
      env.gce_initd_dump_file).IsExists env.gce_initd_dump_file = false := by
    have := World.readFile_Remove (worldAfterMount env w)
      env.gce_initd_dump_file
    unfold World.readFile at this
    simp [World.IsExists, this]
  rw [main_of_passesInit api env w argv hpass]
  cases hex : (worldAfterMount env w).IsExists env.gce_initd_dump_file with
  | false =>
    obtain ⟨post, hpost, hst⟩ := mainAfterLoad_trace api env
      (worldAfterMount env w) (some (api.Init api.create).2)
      (keepArgv env.junk argv argv.length) argv.length
    refine ⟨(.parseCommandLineFlags :: (@MountProc κ env w).2.1
      ++ [.initdInit]) ++ [.isExists env.gce_initd_dump_file], post,
      ?_, ?_, hst, hgone⟩
    · rw [mainLoad_of_absent _ _ _ _ _ _ hex]
      simp [hpost]
    · intro e he
      rw [List.mem_append] at he
      rcases he with he | he
      · exact Nat.le_trans (stage_before_load env w e he) (by decide)
      · simp at he; subst he; simp [Event.stage]
  | true =>
    obtain ⟨service, t, hl⟩ := hload hex
    obtain ⟨post, hpost, hst⟩ := mainAfterLoad_trace api env
      (worldAfterMount env w) service
      (keepArgv env.junk argv argv.length) argv.length
    refine ⟨(.parseCommandLineFlags :: (@MountProc κ env w).2.1
      ++ [.initdInit]) ++ (.isExists env.gce_initd_dump_file :: t), post,
      ?_, ?_, hst, hgone⟩
    · rw [mainLoad_of_loaded _ _ _ _ _ _ _ _ hex hl]
      simp [hpost]
    · intro e he
      rw [List.mem_append, List.mem_cons] at he
      rcases he with he | he | he
      · exact Nat.le_trans (stage_before_load env w e he) (by decide)
      · subst he; simp [Event.stage]
      · rw [(LoadInitdCheckpoint_stage api env _ _).1 _ _ _ hl e he]

/-- C2, amended, at a concrete input: a dump file that loads. -/
theorem dump_file_removed_after_load_witness :
    (PassesInit demoApi demoEnv dumpedWorld ∧
      LoadPasses demoApi demoEnv dumpedWorld) ∧
    (worldAfterMount demoEnv dumpedWorld).IsExists
      demoEnv.gce_initd_dump_file = true ∧
    (∃ pre post : List (Event (List Nat)),
      (main demoApi demoEnv dumpedWorld demoArgv).trace
        = pre ++ .remove demoEnv.gce_initd_dump_file :: post ∧
      (∀ e ∈ pre, e.stage ≤ 3) ∧ (∀ e ∈ post, 5 ≤ e.stage)) := by
  have hpass : PassesInit demoApi demoEnv dumpedWorld := ⟨by decide, rfl⟩
  have hload : LoadPasses demoApi demoEnv dumpedWorld :=
    fun _ => ⟨some [7, 8], [.openRead "initd.dump",
      .loadProcessInfoCheckPoint [7, 8]], by decide⟩
  obtain ⟨pre, post, h1, h2, h3, _⟩ :=
    dump_file_removed_after_load demoApi demoEnv dumpedWorld demoArgv
      hpass hload
  exact ⟨⟨hpass, hload⟩, by decide, pre, post, h1, h2, h3⟩

end Initd
